import Mathlib

/-!
# Verification of the Claude-Codex orchestrator core

Shallow embedding of `src/orchestrator.py`: the task-graph normalizer, the
scheduler loop, the exchange state machine driven by the concertmaster
(supervisor) worker, the token budget governor, and the confirmation-payload
helpers.  Python strings are modelled as Lean `String`, Python dynamic values
as the inductive `PyVal`, machine integers as `Nat`/`Int`, and fallible code
as `Except`.  Every definition is translated from the source; definitions
that follow the spec's words instead (for refinement comparisons) say so in
their doc comment.
-/

namespace Orch

/-! ## Python string primitives

`str.strip()` / `str.lower()` / `str.splitlines()` and the whitespace class
of `re`'s `\s`, modelled on the common whitespace characters. -/

/-- Whitespace characters recognized by Python's `str.strip` and `\s`
(ASCII whitespace plus the frequent Unicode line/space separators). -/
def isPySpace (c : Char) : Bool :=
  c = ' ' || c = '\t' || c = '\n' || c = '\r' ||
  c = '\x0b' || c = '\x0c' ||
  c = '\x1c' || c = '\x1d' || c = '\x1e' || c = '\x85' ||
  c = ' ' || c = ' ' || c = ' '

/-- `str.strip()` on a character list: drop whitespace from both ends. -/
def pyStripList (l : List Char) : List Char :=
  ((l.dropWhile isPySpace).reverse.dropWhile isPySpace).reverse

/-- Python `s.strip()`. -/
def pyStrip (s : String) : String :=
  ⟨pyStripList s.data⟩

/-- Python `s.lower()` (ASCII case folding, which is the identity on the
Japanese strings the program compares). -/
def pyLower (s : String) : String :=
  ⟨s.data.map Char.toLower⟩

/-- Line-boundary characters of Python's `str.splitlines()`. -/
def isPyLineBreak (c : Char) : Bool :=
  c = '\n' || c = '\r' || c = '\x0b' || c = '\x0c' ||
  c = '\x1c' || c = '\x1d' || c = '\x1e' || c = '\x85' ||
  c = ' ' || c = ' '

/-- Split a character list at line-break characters.  A `\r\n` pair yields an
extra empty segment, which every caller discards after stripping, so the
result agrees with Python's `splitlines` for the orchestrator's uses. -/
def splitLinesList : List Char → List (List Char)
  | [] => [[]]
  | c :: rest =>
    let tail := splitLinesList rest
    if isPyLineBreak c then [] :: tail
    else match tail with
      | [] => [[c]]
      | l :: ls => (c :: l) :: ls

/-- Python `s.splitlines()` up to empty-segment noise (see `splitLinesList`). -/
def pySplitLines (s : String) : List String :=
  (splitLinesList s.data).map fun l => (⟨l⟩ : String)

/-! ## Injectivity of `Nat.repr`

Needed to show the `unique_name` suffix search terminates on a fresh name:
the candidate names `name-2`, `name-3`, … are pairwise distinct. -/

/-- Numeric value of a decimal digit character. -/
def digitVal (c : Char) : Nat := c.toNat - 48

/-- Fold a decimal digit string back to the number it denotes. -/
def parseDigits (l : List Char) : Nat :=
  l.foldl (fun a c => 10 * a + digitVal c) 0

/-! ## `unique_name` (orchestrator.py lines 460-466)

```python
def unique_name(name: str, used: set[str]) -> str:
    if name not in used:
        return name
    idx = 2
    while f"{name}-{idx}" in used:
        idx += 1
    return f"{name}-{idx}"
```

The `used` set is modelled as a list (membership is all the code uses).  The
unbounded `while` is modelled with fuel `used.length + 1`: by pigeonhole some
candidate among the first `used.length + 1` is fresh, so the fuel never runs
out on the path the code takes. -/

/-- The candidate name `name-idx`. -/
def suffixed (name : String) (idx : Nat) : String :=
  name ++ "-" ++ Nat.repr idx

/-- The suffix search loop of `unique_name`. -/
def uniqueNameAux (name : String) (used : List String) : Nat → Nat → String
  | 0, idx => suffixed name idx
  | fuel + 1, idx =>
    if suffixed name idx ∈ used then uniqueNameAux name used fuel (idx + 1)
    else suffixed name idx

/-- `unique_name(name, used)`. -/
def unique_name (name : String) (used : List String) : String :=
  if name ∈ used then uniqueNameAux name used (used.length + 1) 2 else name

/-! ## Python values

The planner output (`score`) and decision envelopes are dynamically-typed
YAML/JSON data.  `PyVal` models the value shapes the orchestrator meets:
`None`, booleans, integers, strings, lists, and string-keyed dicts. -/

/-- A dynamically-typed Python value. -/
inductive PyVal where
  | none
  | bool (b : Bool)
  | int (n : Int)
  | str (s : String)
  | list (items : List PyVal)
  | dict (entries : List (String × PyVal))

/-- Python truthiness (`bool(v)`). -/
def pyTruthy : PyVal → Bool
  | .none => false
  | .bool b => b
  | .int n => n ≠ 0
  | .str s => s ≠ ""
  | .list items => !items.isEmpty
  | .dict entries => !entries.isEmpty

/-- Python `a or b` (first truthy operand, else the last). -/
def pyOr (a b : PyVal) : PyVal := if pyTruthy a then a else b

/-- `d.get(key)` on a dict value: `None` when absent or when the receiver is
not a dict. -/
def dictGet (entries : List (String × PyVal)) (key : String) : PyVal :=
  match entries.find? (fun e => e.1 = key) with
  | some e => e.2
  | Option.none => .none

/-- `v.get(key)` where `v` may or may not be a dict (callers guard with
`isinstance`). -/
def PyVal.get : PyVal → String → PyVal
  | .dict entries, key => dictGet entries key
  | _, _ => .none

mutual

/-- Python `repr(v)` (string escaping inside `repr` of a `str` is elided:
the orchestrator never inspects those renderings). -/
def pyReprV : PyVal → String
  | .none => "None"
  | .bool true => "True"
  | .bool false => "False"
  | .int n => toString n
  | .str s => "'" ++ s ++ "'"
  | .list items => "[" ++ String.intercalate (", ") (pyReprList items) ++ "]"
  | .dict entries => "\x7b" ++ String.intercalate (", ") (pyReprEntries entries) ++ "\x7d"

/-- `repr` of list elements. -/
def pyReprList : List PyVal → List String
  | [] => []
  | v :: vs => pyReprV v :: pyReprList vs

/-- `repr` of dict entries. -/
def pyReprEntries : List (String × PyVal) → List String
  | [] => []
  | (k, v) :: es => ("'" ++ k ++ "': " ++ pyReprV v) :: pyReprEntries es

end

/-- Python `str(v)`. -/
def pyStr : PyVal → String
  | .str s => s
  | v => pyReprV v

/-! ## Task graph normalizer (orchestrator.py lines 447-668)

`split_task_lines`, `normalize_dependency_list`, `normalize_task_entry`,
`normalize_tasks`, `assign_instruments`, `normalize_assignments`. -/

/-- `normalize_dependency_list(value)` (lines 469-480). -/
def normalize_dependency_list : PyVal → List String
  | .none => []
  | .str s => if pyStrip s ≠ "" then [pyStrip s] else []
  | .list items =>
    items.filterMap fun it =>
      match it with
      | .str s => if pyStrip s ≠ "" then some (pyStrip s) else Option.none
      | _ => Option.none
  | _ => []

/-- A normalized planner task entry (the dict built by `normalize_task_entry`). -/
structure TaskEntry where
  id : String
  task : String
  notes : String
  preferred : String
  deps : List String
  group : String
deriving DecidableEq

/-- `normalize_task_entry(item, default_group)` (lines 483-519). -/
def normalize_task_entry (item : PyVal) (default_group : String) : Option TaskEntry :=
  match item with
  | .str s =>
    if pyStrip s = "" then Option.none
    else some ⟨"", pyStrip s, "", "", [], default_group⟩
  | .dict entries =>
    let task_text := pyOr (dictGet entries ("task"))
      (pyOr (dictGet entries ("summary"))
        (pyOr (dictGet entries ("detail")) (dictGet entries ("instruction"))))
    if !pyTruthy task_text then Option.none
    else some {
      id := pyStrip (pyStr (pyOr (dictGet entries ("id"))
        (pyOr (dictGet entries ("task_id")) (pyOr (dictGet entries ("name")) (.str ""))))),
      task := pyStrip (pyStr task_text),
      notes := pyStrip (pyStr (pyOr (dictGet entries ("notes")) (.str ""))),
      preferred := pyStrip (pyStr (pyOr (dictGet entries ("preferred_instrument"))
        (pyOr (dictGet entries ("instrument")) (pyOr (dictGet entries ("role")) (.str ""))))),
      deps := normalize_dependency_list (pyOr (dictGet entries ("deps"))
        (pyOr (dictGet entries ("depends_on")) (dictGet entries ("dependencies")))),
      group := default_group }
  | _ => Option.none

/-- The bullet-marker regex `^\s*(?:[-*•・]|(?:\d+)[\)\.\:]?|\(\d+\))\s+`
(line 38): consume the whitespace that follows the marker (at least one
whitespace character is required). -/
def afterWsPlus (l : List Char) : Option (List Char) :=
  match l with
  | c :: cs => if isPySpace c then some (cs.dropWhile isPySpace) else Option.none
  | [] => Option.none

/-- Match `_BULLET_RE` against a line and return the remainder after the
matched bullet marker, or `none` when the line is not a bullet.  The greedy
`\s*`/`\d+` pieces are deterministic here because the follow-set of each is
disjoint from its own character class (see the alternation in the regex). -/
def bulletMatch (l : List Char) : Option (List Char) :=
  let rest := l.dropWhile isPySpace
  match rest with
  | [] => Option.none
  | c :: cs =>
    if c = '-' || c = '*' || c = '•' || c = '・' then
      afterWsPlus cs
    else if c.isDigit then
      let sp := (c :: cs).span (fun d => d.isDigit)
      match sp.2 with
      | [] => Option.none
      | p :: ps =>
        if p = ')' || p = '.' || p = ':' then
          -- with the optional punctuation consumed; the no-punctuation
          -- alternative cannot succeed since `p` is not whitespace
          afterWsPlus ps
        else afterWsPlus sp.2
    else if c = '(' then
      let sp := cs.span (fun d => d.isDigit)
      if sp.1.isEmpty then Option.none
      else match sp.2 with
        | ')' :: ps => afterWsPlus ps
        | _ => Option.none
    else Option.none

/-- `split_task_lines(task)` (lines 447-457). -/
def split_task_lines (task : String) : List String :=
  let lines := ((pySplitLines task).map pyStrip).filter (fun l => l ≠ "")
  if lines.isEmpty then []
  else
    let bullets := lines.filterMap fun line =>
      (bulletMatch line.data).map (fun r => pyStrip ⟨r⟩)
    if bullets.length ≥ 2 then bullets.filter (fun b => b ≠ "")
    else [pyStrip task]

/-- A task entry built by the free-text fallback stages of `normalize_tasks`. -/
def textTask (text : String) : TaskEntry :=
  ⟨"", text, "", "", [], "bag"⟩

/-- Collect `normalize_task_entry` over a planner list field. -/
def collectEntries (v : PyVal) (group : String) : List TaskEntry :=
  match v with
  | .list items => items.filterMap (fun it => normalize_task_entry it group)
  | _ => []

/-- Collect entries while overriding `preferred` from the given name keys
(the `performers` / `instruments` stages of `normalize_tasks`). -/
def collectEntriesNamed (v : PyVal) (nameKeys : List String) : List TaskEntry :=
  match v with
  | .list items =>
    items.filterMap fun it =>
      (normalize_task_entry it ("bag")).map fun e =>
        match it with
        | .dict entries =>
          { e with preferred := pyStrip (pyStr
              (nameKeys.foldr (fun k acc => pyOr (dictGet entries k) acc) (.str ""))) }
        | _ => e
  | _ => []

/-- `normalize_tasks(score, task)` (lines 522-589): structured fields first
(`dag` and `bag`, then `performers`, `tasks`, `instruments`, each stage only
when the previous ones produced nothing), then bullet-splitting of the free
text, then the single-task fallback. -/
def normalize_tasks (score : List (String × PyVal)) (task : String) : List TaskEntry :=
  let tasks1 := collectEntries (dictGet score ("dag")) ("dag") ++
    collectEntries (dictGet score ("bag")) ("bag")
  let tasks2 := if tasks1.isEmpty then
      collectEntriesNamed (dictGet score ("performers")) [("name"), ("instrument")]
    else tasks1
  let tasks3 := if tasks2.isEmpty then collectEntries (dictGet score ("tasks")) ("bag")
    else tasks2
  let tasks4 := if tasks3.isEmpty then
      collectEntriesNamed (dictGet score ("instruments")) [("name")]
    else tasks3
  let tasks5 := if tasks4.isEmpty then
      (split_task_lines task).filterMap fun part =>
        if pyStrip part = "" then Option.none else some (textTask (pyStrip part))
    else tasks4
  if tasks5.isEmpty && pyStrip task ≠ "" then [textTask (pyStrip task)] else tasks5

/-- A worker assignment (the dict built by `assign_instruments`). -/
structure Assignment where
  name : String
  task : String
  notes : String
  id : String
  deps : List String
  group : String
deriving DecidableEq

/-- The `while pool_index < len(pool) and pool[pool_index] in used` advance
loop of `assign_instruments` (lines 604-605), with fuel `pool.length` (the
index grows each step, so that fuel is always enough). -/
def advancePool (pool used : List String) : Nat → Nat → Nat
  | 0, i => i
  | fuel + 1, i =>
    if h : i < pool.length then
      if pool[i] ∈ used then advancePool pool used fuel (i + 1) else i
    else i

/-- One output record of `assign_instruments` (lines 612-621). -/
def mkAssign (name : String) (item : TaskEntry) : Assignment :=
  { name := name, task := pyStrip item.task, notes := pyStrip item.notes,
    id := pyStrip item.id, deps := item.deps, group := pyStrip item.group }

/-- The main loop of `assign_instruments` (lines 598-622). -/
def assignInstrumentsAux (pool : List String) :
    List TaskEntry → Nat → List String → Nat → List Assignment
  | [], _, _, _ => []
  | item :: rest, idx, used, poolIdx =>
    let preferred := pyStrip item.preferred
    if preferred ≠ "" then
      let nm := unique_name preferred used
      mkAssign nm item :: assignInstrumentsAux pool rest (idx + 1) (nm :: used) poolIdx
    else
      let j := advancePool pool used pool.length poolIdx
      if h : j < pool.length then
        let nm := unique_name (pool[j]) used
        mkAssign nm item :: assignInstrumentsAux pool rest (idx + 1) (nm :: used) (j + 1)
      else
        let nm := "演奏者-" ++ Nat.repr idx
        mkAssign nm item :: assignInstrumentsAux pool rest (idx + 1) (nm :: used) j

/-- `assign_instruments(tasks, instrument_pool)` (lines 592-622). -/
def assign_instruments (tasks : List TaskEntry) (instrument_pool : List PyVal) :
    List Assignment :=
  let pool := instrument_pool.filterMap fun v =>
    match v with
    | .str s => if pyStrip s ≠ "" then some s else Option.none
    | _ => Option.none
  assignInstrumentsAux pool tasks 1 [] 0

/-- `normalize_dependency_list` restricted to a list of strings, which is the
shape `normalize_assignments` feeds it (the `deps` field built by
`normalize_task_entry` / `assign_instruments`). -/
def normalizeDepStrs (deps : List String) : List String :=
  (deps.filter (fun d => pyStrip d ≠ "")).map pyStrip

/-- First pass of `normalize_assignments` (lines 626-641): assign each task a
non-empty id, de-duplicated against the ids already taken, and re-normalize
the dependency list.  Returns the rewritten assignments and the final
`used_ids`.  The `verbose` warnings are log-only and are not modelled. -/
def normalizeIdsAux : List Assignment → Nat → List String → (List Assignment × List String)
  | [], _, used => ([], used)
  | inst :: rest, idx, used =>
    let raw0 := pyStrip inst.id
    let raw1 := if raw0 = "" then "task-" ++ Nat.repr idx else raw0
    let raw2 := if raw1 ∈ used then unique_name raw1 used else raw1
    let inst' := { inst with id := raw2, deps := normalizeDepStrs inst.deps }
    let p := normalizeIdsAux rest (idx + 1) (raw2 :: used)
    (inst' :: p.1, p.2)

/-- Second pass of `normalize_assignments` (lines 643-654): drop empty ids,
self-references and unknown dependency ids. -/
def filterDeps (usedIds : List String) (inst : Assignment) : Assignment :=
  { inst with deps :=
      (inst.deps.filter (fun d => d ≠ "" && d ≠ inst.id)).filter (fun d => d ∈ usedIds) }

/-- `normalize_assignments(assignments, verbose)` (lines 625-655). -/
def normalize_assignments (assignments : List Assignment) : List Assignment :=
  let p := normalizeIdsAux assignments 1 []
  p.1.map (filterDeps p.2)

/-- The normalizer pipeline as wired in `run` (lines 1547-1548 via
`normalize_score`, lines 658-668): planner output plus free text to the
final validated assignment list. -/
def normalizedPipeline (score : List (String × PyVal)) (task : String)
    (instrument_pool : List PyVal) : List Assignment :=
  normalize_assignments (assign_instruments (normalize_tasks score task) instrument_pool)

/-- A task list meeting the letter of the idempotence claim (non-empty
unique ids, each dependency the id of another task of the list) whose first
id carries leading whitespace: `normalize_assignments` strips it. -/
def exC8 : List Assignment :=
  [{ name := "w1", task := "t1", notes := "", id := " a", deps := [], group := "bag" },
   { name := "w2", task := "t2", notes := "", id := "b", deps := [" a"], group := "bag" }]

/-- A concretely valid (trimmed, unique, well-referenced) task list, used to
witness the amended idempotence theorem. -/
def exC8ok : List Assignment :=
  [{ name := "w1", task := "t1", notes := "", id := "a", deps := ["b"], group := "bag" },
   { name := "w2", task := "t2", notes := "", id := "b", deps := [], group := "bag" }]

/-! ## Scheduler (orchestrator.py lines 1573-1694)

The `run` function's scheduling loop: local task states (`task_states`), the
completed-id set (`done_ids`), `deps_done`, the start phase, the polling
phase, and the loop's three exit conditions.  The exchange files read by the
poll are external input, modelled as a report oracle per iteration. -/

/-- The lifecycle status of a scheduler-local task state. -/
inductive TStatus where
  | pending
  | running
  | done
  | error
deriving DecidableEq

/-- One entry of `task_states` (lines 1577-1585). -/
structure TaskState where
  index : Nat
  id : String
  deps : List String
  status : TStatus
deriving DecidableEq

/-- `task_states` built from the assignments (lines 1577-1585):
`inst.get("id") or f"task-{idx + 1}"`, `inst.get("deps") or []`, pending. -/
def initTaskStatesAux : List Assignment → Nat → List TaskState
  | [], _ => []
  | a :: rest, idx =>
    { index := idx,
      id := if a.id ≠ "" then a.id else "task-" ++ Nat.repr (idx + 1),
      deps := a.deps, status := TStatus.pending } :: initTaskStatesAux rest (idx + 1)

/-- Initial scheduler-local task states. -/
def initTaskStates (assignments : List Assignment) : List TaskState :=
  initTaskStatesAux assignments 0

/-- Scheduler-local state: the task states plus `done_ids`. -/
structure SchedState where
  tasks : List TaskState
  doneIds : List String

/-- `deps_done(state)` (lines 1588-1590). -/
def deps_done (doneIds : List String) (t : TaskState) : Bool :=
  t.deps.all (fun dep => dep ∈ doneIds)

/-- What the poll phase learns from one task's exchange record
(`read_exchange(path).get("status")`, lines 1659-1664): terminal `done`,
terminal `error`, or anything else (the pair still working).  This is
external input to the scheduler. -/
inductive ExchReport where
  | working
  | done
  | error

/-- The start phase applied to one task (lines 1648-1650 together with
`start_task` line 1643): a pending task whose dependencies are all completed
becomes running. -/
def startReadyFn (doneIds : List String) (t : TaskState) : TaskState :=
  if t.status = TStatus.pending && deps_done doneIds t then
    { t with status := TStatus.running }
  else t

/-- The start phase over the whole state. -/
def startReady (s : SchedState) : SchedState :=
  { s with tasks := s.tasks.map (startReadyFn s.doneIds) }

/-- The poll phase applied to one task (lines 1655-1664). -/
def pollTask (report : Nat → ExchReport) (t : TaskState) : TaskState :=
  if t.status = TStatus.running then
    match report t.index with
    | ExchReport.done => { t with status := TStatus.done }
    | ExchReport.error => { t with status := TStatus.error }
    | ExchReport.working => t
  else t

/-- The poll phase over the whole state: update statuses and add the id of
every task that just transitioned to done to `done_ids` (line 1662). -/
def pollPhase (report : Nat → ExchReport) (s : SchedState) : SchedState :=
  { tasks := s.tasks.map (pollTask report),
    doneIds := s.doneIds ++ s.tasks.filterMap fun t =>
      if t.status = TStatus.running then
        match report t.index with
        | ExchReport.done => some t.id
        | _ => Option.none
      else Option.none }

/-- The outcome of one iteration of the scheduling loop. -/
inductive SchedOutcome where
  | next (s : SchedState)
  | finished (s : SchedState)
  | deadlock (s : SchedState)

/-- The loop's exit conditions (lines 1682-1692), evaluated on the state
after the start and poll phases: exit when all tasks are done, when nothing
is running and nothing is pending, or — deadlock notice — when nothing is
running but pending tasks remain.  `len(assignments)` equals the number of
task states throughout. -/
def schedVerdict (s2 : SchedState) : SchedOutcome :=
  if s2.tasks.countP (fun t => t.status = TStatus.done) ≥ s2.tasks.length then
    SchedOutcome.finished s2
  else if s2.tasks.countP (fun t => t.status = TStatus.running) = 0 &&
      s2.tasks.countP (fun t => t.status = TStatus.pending) = 0 then
    SchedOutcome.finished s2
  else if s2.tasks.countP (fun t => t.status = TStatus.running) = 0 &&
      s2.tasks.countP (fun t => t.status = TStatus.pending) > 0 then
    SchedOutcome.deadlock s2
  else SchedOutcome.next s2

/-- One iteration of the scheduling loop (lines 1646-1694): start ready
tasks, poll the running ones, then apply the exit conditions. -/
def schedStep (report : Nat → ExchReport) (s : SchedState) : SchedOutcome :=
  schedVerdict (pollPhase report (startReady s))

/-- The state a loop outcome carries. -/
def SchedOutcome.state : SchedOutcome → SchedState
  | .next s => s
  | .finished s => s
  | .deadlock s => s

/-- The scheduling loop run over a list of per-iteration reports (the loop
stops at the first terminal outcome). -/
def schedRun : SchedState → List (Nat → ExchReport) → SchedOutcome
  | s, [] => SchedOutcome.next s
  | s, r :: rs =>
    match schedStep r s with
    | SchedOutcome.next s' => schedRun s' rs
    | out => out

/-- A two-task dependency cycle, as scheduler-local state. -/
def exC2 : SchedState :=
  { tasks := initTaskStates
      [{ name := "w1", task := "t1", notes := "", id := "a", deps := ["b"], group := "bag" },
       { name := "w2", task := "t2", notes := "", id := "b", deps := ["a"], group := "bag" }],
    doneIds := [] }

/-! ## Exchange state machine (orchestrator.py lines 923-1284)

The per-task exchange record as the concertmaster (supervisor) and performer
workers drive it.  The record's YAML status strings map to `RStatus`; the
record keeps a turn counter and a pending-confirmation payload whose user
fields (`user_reply` / `user_choice` / `user_approved`) are summarized by
`pendingFilled` (the truthiness test of lines 1141-1142).  The concertmaster
worker additionally keeps a loop-local `turn` counter (line 1132), the one
compared against `max_turns` (line 1161). -/

/-- The exchange record's status values. -/
inductive RStatus where
  | waitingForConcertmaster
  | waitingForPerformer
  | waitingForUser
  | done
  | error
deriving DecidableEq

/-- The parts of the exchange record the turn-cap claim concerns. -/
structure ExchRec where
  status : RStatus
  turn : Nat
  pendingFilled : Bool
deriving DecidableEq

/-- The concertmaster worker's view: the shared record plus its local turn
counter. -/
structure WorkerState where
  record : ExchRec
  localTurn : Nat
deriving DecidableEq

/-- The supervisor decision parsed from the agent's output
(`parse_action_output`, lines 1006-1010, and the dispatch at lines
1186-1232): `done`, `needs_user_confirm`, or `reply` (any other or
unparsable output degrades to `reply`). -/
inductive Decision where
  | done
  | needsUserConfirm
  | reply
deriving DecidableEq

/-- One event of the exchange system: a concertmaster poll carrying the
agent's decision (ignored except in the `waiting_for_concertmaster` branch),
a performer poll, or the external control surface writing a user decision
into the pending payload. -/
inductive WEvent where
  | sup (d : Decision)
  | perf
  | user
deriving DecidableEq

/-- One iteration of the concertmaster worker loop body (lines 1134-1233).
In `waiting_for_user` with a filled payload it applies the user decision
(lines 1145-1152: turn + 1, no agent call); in `waiting_for_concertmaster`
it first enforces the cap (lines 1161-1167: `turn >= max_turns` forces
`done` without invoking the agent), otherwise acts on the agent's decision
(`done` → done, `needs_user_confirm` → waiting_for_user with a fresh unfilled
payload, `reply` → waiting_for_performer with both counters advanced,
lines 1190-1233). -/
def supStep (maxTurns : Nat) (w : WorkerState) (d : Decision) : WorkerState :=
  match w.record.status with
  | RStatus.done => w
  | RStatus.error => w
  | RStatus.waitingForPerformer => w
  | RStatus.waitingForUser =>
    if w.record.pendingFilled then
      { record := { status := RStatus.waitingForPerformer, turn := w.record.turn + 1,
                    pendingFilled := false },
        localTurn := w.localTurn }
    else w
  | RStatus.waitingForConcertmaster =>
    if w.localTurn ≥ maxTurns then
      { w with record := { w.record with status := RStatus.done } }
    else match d with
      | Decision.done =>
        { w with record := { w.record with status := RStatus.done, pendingFilled := false } }
      | Decision.needsUserConfirm =>
        { w with record := { status := RStatus.waitingForUser, turn := w.record.turn,
                             pendingFilled := false } }
      | Decision.reply =>
        { record := { status := RStatus.waitingForPerformer, turn := w.record.turn + 1,
                      pendingFilled := false },
          localTurn := w.localTurn + 1 }

/-- One step of the exchange system: the concertmaster worker, the performer
worker (lines 1253-1282: act only in `waiting_for_performer`, flip back to
`waiting_for_concertmaster`), or a user write (lines 1140-1142 trigger). -/
def workerStep (maxTurns : Nat) (w : WorkerState) : WEvent → WorkerState
  | WEvent.sup d => supStep maxTurns w d
  | WEvent.perf =>
    if w.record.status = RStatus.waitingForPerformer then
      { w with record := { w.record with status := RStatus.waitingForConcertmaster } }
    else w
  | WEvent.user =>
    if w.record.status = RStatus.waitingForUser then
      { w with record := { w.record with pendingFilled := true } }
    else w

/-- The record as `init_exchange` writes it (lines 923-937) paired with the
worker's fresh local counter. -/
def initWorker : WorkerState :=
  { record := { status := RStatus.waitingForConcertmaster, turn := 0, pendingFilled := false },
    localTurn := 0 }

/-- The exchange system run over a list of events. -/
def workerRun (maxTurns : Nat) (events : List WEvent) : WorkerState :=
  events.foldl (workerStep maxTurns) initWorker

/-- The event trace of the C3 counterexample: a user-confirmation round
followed by one ordinary reply round, under `max_turns = 1`. -/
def exC3events : List WEvent :=
  [WEvent.sup Decision.needsUserConfirm, WEvent.user, WEvent.sup Decision.done,
   WEvent.perf, WEvent.sup Decision.reply]

/-! ## External invocation (`run_external`, orchestrator.py lines 752-835)

`subprocess.run(cmd, ..., timeout=timeout_sec, ...)` (line 805) raises
`subprocess.TimeoutExpired` when the child is killed for exceeding the
caller-supplied timeout, and `run_external` wraps it in no `try`, so the
embedding returns `Except`: `.error` is an exception propagating out of the
function.  The worker loops (lines 1134-1235 and 1254-1283) guard the call
with `try`/`finally` only, so such an error also escapes them. -/

/-- The result dict of `run_external`.  The `cmd` field (the template with
placeholders interpolated) is not modelled: no claim depends on it. -/
structure RunExtResult where
  stdout : String
  stderr : String
  returncode : Int
  usedStdin : Bool
  tokensInput : Nat
  tokensOutput : Nat
deriving DecidableEq

/-- What the spawned external process does under the caller-supplied
timeout: completes (with output and an exit code), or is killed for
exceeding the timeout, in which case `subprocess.run` raises
`TimeoutExpired`. -/
inductive SubprocBehavior where
  | completes (stdout : String) (stderr : String) (returncode : Int)
  | timeoutExpired
deriving DecidableEq

/-- A Python exception escaping an embedded function. -/
inductive PyError where
  | timeoutExpired
  | attributeError
  | typeError
deriving DecidableEq

/-- `command_uses(cmd_tmpl, placeholder)` (lines 435-437). -/
def command_uses (cmdTmpl : List String) (placeholder : String) : Bool :=
  cmdTmpl.any fun part =>
    decide (List.IsInfix (("\x7b" ++ placeholder ++ "\x7d").data) part.data)

/-- `run_external` (lines 752-835).  `tokenCounts` abstracts the token
estimation of lines 817-822 (`estimate_tokens` / `parse_token_usage`,
applied to the prompt and the stdout); it only fills the token fields of the
result and feeds the tracker, and no claim depends on its values. -/
def run_external (cmdTmpl : List String) (prompt : String) (dryRun : Bool)
    (subproc : SubprocBehavior) (tokenCounts : String → String → Nat × Nat) :
    Except PyError RunExtResult :=
  if cmdTmpl.isEmpty then
    Except.ok { stdout := "", stderr := "コマンドが未設定です。", returncode := 1,
                usedStdin := false, tokensInput := 0, tokensOutput := 0 }
  else
    let usesPrompt := command_uses cmdTmpl ("prompt")
    let usesPromptFile := command_uses cmdTmpl ("prompt_file")
    let usedStdin := !(usesPrompt || usesPromptFile)
    if dryRun then
      Except.ok { stdout := "", stderr := "", returncode := 0,
                  usedStdin := usedStdin, tokensInput := 0, tokensOutput := 0 }
    else
      match subproc with
      | SubprocBehavior.timeoutExpired => Except.error PyError.timeoutExpired
      | SubprocBehavior.completes out err rc =>
        let tk := tokenCounts prompt out
        Except.ok { stdout := out, stderr := err, returncode := rc,
                    usedStdin := usedStdin, tokensInput := tk.1, tokensOutput := tk.2 }

/-! ## Token budget governor (orchestrator.py lines 53-122 and 1339-1460)

`TokenUsage` with `add_usage` / `usage_ratio` / `_check_thresholds`, wired in
`run` to the once-guarded callbacks `on_warning_once` / `on_compact_once`
and the mitigation `on_compact_needed` with its `compact_attempts` budget.
Float ratios are modelled as rationals; `int(total * 0.5)` is halving
rounded down.  Whether any `/compact` subprocess call succeeds is external
input (`anySuccess`). -/

/-- One entry of the ledger's per-call history (lines 78-85, timestamp
omitted). -/
structure HistEntry where
  label : String
  input : Nat
  output : Nat
  combined : Nat
  cumulative : Nat
deriving DecidableEq

/-- The `TokenUsage` dataclass fields (lines 53-69; the callbacks live in
`GovState`). -/
structure TokenUsage where
  total_input : Nat
  total_output : Nat
  total_combined : Nat
  call_count : Nat
  history : List HistEntry
  warning_threshold : ℚ
  compact_threshold : ℚ
  max_tokens : Int
deriving DecidableEq

/-- `usage_ratio` (lines 88-92): `0.0` for a non-positive budget. -/
def usage_ratio (t : TokenUsage) : ℚ :=
  if t.max_tokens ≤ 0 then 0 else (t.total_combined : ℚ) / (t.max_tokens : ℚ)

/-- The pure accounting part of `add_usage` (lines 71-85). -/
def add_usage (input output : Nat) (label : String) (t : TokenUsage) : TokenUsage :=
  let combined := input + output
  { t with
    total_input := t.total_input + input,
    total_output := t.total_output + output,
    total_combined := t.total_combined + combined,
    call_count := t.call_count + 1,
    history := t.history ++
      [{ label := label, input := input, output := output, combined := combined,
         cumulative := t.total_combined + combined }] }

/-- The governor state `run` keeps around the tracker: the once-flags
(lines 1444-1445) and the mitigation budget counter (line 1351). -/
structure GovState where
  usage : TokenUsage
  warningFired : Bool
  compactFired : Bool
  compactAttempts : Nat
deriving DecidableEq

/-- The post-mitigation discount (lines 1417-1421): each total is halved,
rounded down (`int(total * 0.5)`). -/
def applyDiscount (t : TokenUsage) : TokenUsage :=
  { t with
    total_combined := t.total_combined / 2,
    total_input := t.total_input / 2,
    total_output := t.total_output / 2 }

/-- `on_compact_needed` (lines 1369-1441): refuse when the attempt budget is
spent (log only), otherwise count the attempt, run the per-kind compact
commands (their success is the external `anySuccess`), and discount the
totals when any succeeded.  The compact-event log write is file I/O and not
modelled. -/
def on_compact_needed (maxCompactAttempts : Int) (anySuccess : Bool) (g : GovState) :
    GovState :=
  if maxCompactAttempts ≤ (g.compactAttempts : Int) then g
  else
    let g1 := { g with compactAttempts := g.compactAttempts + 1 }
    if anySuccess then { g1 with usage := applyDiscount g1.usage } else g1

/-- `on_compact_once` (lines 1452-1457): the reentrancy flag is set, the
mitigation runs, and the flag is reset. -/
def on_compact_once (maxCompactAttempts : Int) (anySuccess : Bool) (g : GovState) :
    GovState :=
  if g.compactFired then g
  else
    let g1 := on_compact_needed maxCompactAttempts anySuccess
      { g with compactFired := true }
    { g1 with compactFired := false }

/-- `on_warning_once` (lines 1447-1450); the status-file write it performs
is modelled by `on_token_warning_status` below. -/
def on_warning_once (g : GovState) : GovState :=
  if g.warningFired then g else { g with warningFired := true }

/-- `_check_thresholds` (lines 94-100), with the callbacks `run` installs
(lines 1459-1460): compaction takes precedence over warning. -/
def checkThresholds (maxCompactAttempts : Int) (anySuccess : Bool) (g : GovState) :
    GovState :=
  if usage_ratio g.usage ≥ g.usage.compact_threshold then
    on_compact_once maxCompactAttempts anySuccess g
  else if usage_ratio g.usage ≥ g.usage.warning_threshold then
    on_warning_once g
  else g

/-- One recorded external call: token counts, a label, and whether the
compact commands of a mitigation triggered now would succeed. -/
structure UsageEvent where
  input : Nat
  output : Nat
  label : String
  anySuccess : Bool

/-- `add_usage` as wired in `run`: account, then evaluate thresholds. -/
def govStep (maxCompactAttempts : Int) (g : GovState) (ev : UsageEvent) : GovState :=
  checkThresholds maxCompactAttempts ev.anySuccess
    { g with usage := add_usage ev.input ev.output ev.label g.usage }

/-- The governor over a run's sequence of recorded calls. -/
def govRun (maxCompactAttempts : Int) (g : GovState) (events : List UsageEvent) : GovState :=
  events.foldl (govStep maxCompactAttempts) g

/-- A recorded call of 170000 output tokens and no input tokens whose
mitigation, if triggered, succeeds. -/
def exC6ev : UsageEvent :=
  { input := 0, output := 170000, label := "call", anySuccess := true }

/-- A fresh governor state with the default configuration of `run`
(lines 1344-1352): thresholds 0.75 / 0.85, budget 200000, 3 attempts. -/
def exGov : GovState :=
  { usage := { total_input := 0, total_output := 0, total_combined := 0, call_count := 0,
               history := [], warning_threshold := 0.75, compact_threshold := 0.85,
               max_tokens := 200000 },
    warningFired := false, compactFired := false, compactAttempts := 0 }

/-! ## Enumerated-choice extraction (orchestrator.py lines 1012-1030)

`extract_choices_from_question` runs `re.findall` with three patterns in
turn: `\((\d+)\)\s*([^(]+?)(?=\s*\(\d+\)|$)`, then
`(?:^|\s)(\d+)\.\s*([^0-9]+?)(?=\s*\d+\.|$)`, then the same with `)` for
`.`.  The scanners below implement the engine's semantics for these three
patterns: the leading `\s*` is matched greedily and shrunk on failure, the
lazy capture grows from one character, and the lookahead is `\s*` plus the
numbered marker, or end of input; `findall` walks left to right and resumes
after each (zero-width-lookahead) match end. -/

/-- Lookahead body `\(\d+\)` after skipping `\s*`. -/
def lookParen (l : List Char) : Bool :=
  match l.dropWhile isPySpace with
  | '(' :: rest =>
    let sp := rest.span (fun d => d.isDigit)
    !sp.1.isEmpty &&
      (match sp.2 with
       | ')' :: _ => true
       | _ => false)
  | _ => false

/-- Lookahead body `\d+` then the given punctuation, after skipping `\s*`. -/
def lookNumPunct (punct : Char) (l : List Char) : Bool :=
  let r := l.dropWhile isPySpace
  let sp := r.span (fun d => d.isDigit)
  !sp.1.isEmpty &&
    (match sp.2 with
     | p :: _ => p = punct
     | [] => false)

/-- The full lookahead `(?=BODY|$)`. -/
def lookOrEnd (look : List Char → Bool) (l : List Char) : Bool :=
  look l || l.isEmpty

/-- Grow the lazy capture (`C+?` for the capture class `capOk`) one character
at a time until the lookahead holds; fail when the class run is exhausted. -/
def growCapture (capOk : Char → Bool) (look : List Char → Bool) (afterW : List Char) :
    Nat → Nat → Option (List Char × List Char)
  | _, 0 => Option.none
  | plen, fuel + 1 =>
    if plen > (afterW.takeWhile capOk).length then Option.none
    else if lookOrEnd look (afterW.drop plen) then some (afterW.take plen, afterW.drop plen)
    else growCapture capOk look afterW (plen + 1) fuel

/-- Shrink the greedy `\s*` run from maximal length downwards, trying the
lazy capture at each width. -/
def tryCaptureW (capOk : Char → Bool) (look : List Char → Bool) (r : List Char) :
    Nat → Option (List Char × List Char)
  | 0 => growCapture capOk look r 1 (r.length + 1)
  | wlen + 1 =>
    match growCapture capOk look (r.drop (wlen + 1)) 1 ((r.drop (wlen + 1)).length + 1) with
    | some pr => some pr
    | Option.none => tryCaptureW capOk look r wlen

/-- `\s*(C+?)(?=LOOK|$)`: the captured group and the rest after the match. -/
def tryCapture (capOk : Char → Bool) (look : List Char → Bool) (r : List Char) :
    Option (List Char × List Char) :=
  tryCaptureW capOk look r (r.takeWhile isPySpace).length

/-- Match pattern 1, `\((\d+)\)\s*([^(]+?)(?=\s*\(\d+\)|$)`, at this
position: the two groups and the rest. -/
def matchParenAt (l : List Char) : Option ((List Char × List Char) × List Char) :=
  match l with
  | '(' :: rest =>
    let sp := rest.span (fun d => d.isDigit)
    if sp.1.isEmpty then Option.none
    else match sp.2 with
      | ')' :: r2 =>
        match tryCapture (fun c => c ≠ '(') lookParen r2 with
        | some (cap, rest') => some ((sp.1, cap), rest')
        | Option.none => Option.none
      | _ => Option.none
  | _ => Option.none

/-- `findall` for pattern 1 (fuel: one more than the remaining length). -/
def findAllParen : Nat → List Char → List (List Char × List Char)
  | 0, _ => []
  | _ + 1, [] => []
  | fuel + 1, l =>
    match matchParenAt l with
    | some (groups, rest) => groups :: findAllParen fuel rest
    | Option.none =>
      match l with
      | [] => []
      | _ :: cs => findAllParen fuel cs

/-- The `\d+` + punctuation + capture part shared by patterns 2 and 3. -/
def matchNumPunct (punct : Char) (l : List Char) :
    Option ((List Char × List Char) × List Char) :=
  let sp := l.span (fun d => d.isDigit)
  if sp.1.isEmpty then Option.none
  else match sp.2 with
    | p :: r2 =>
      if p = punct then
        match tryCapture (fun c => !c.isDigit) (lookNumPunct punct) r2 with
        | some (cap, rest') => some ((sp.1, cap), rest')
        | Option.none => Option.none
      else Option.none
    | [] => Option.none

/-- Match pattern 2/3, `(?:^|\s)(\d+)P\s*([^0-9]+?)(?=\s*\d+P|$)`, at this
position (`^` only at the very start, else one whitespace is consumed). -/
def matchNumPunctAt (punct : Char) (atStart : Bool) (l : List Char) :
    Option ((List Char × List Char) × List Char) :=
  match (if atStart then matchNumPunct punct l else Option.none) with
  | some res => some res
  | Option.none =>
    match l with
    | c :: cs => if isPySpace c then matchNumPunct punct cs else Option.none
    | [] => Option.none

/-- `findall` for patterns 2 and 3. -/
def findAllNumPunct (punct : Char) : Nat → Bool → List Char → List (List Char × List Char)
  | 0, _, _ => []
  | _ + 1, _, [] => []
  | fuel + 1, atStart, l =>
    match matchNumPunctAt punct atStart l with
    | some (groups, rest) => groups :: findAllNumPunct punct fuel false rest
    | Option.none =>
      match l with
      | [] => []
      | _ :: cs => findAllNumPunct punct fuel false cs

/-- Render the matches as `f"{num}: {text.strip()}"`. -/
def renderChoices (ms : List (List Char × List Char)) : List String :=
  ms.map fun g => (⟨g.1⟩ : String) ++ ": " ++ pyStrip ⟨g.2⟩

/-- `extract_choices_from_question(question)` (lines 1012-1030): the first
pattern producing at least two matches wins; otherwise no options. -/
def extract_choices_from_question (question : String) : List String :=
  let l := question.data
  let m1 := findAllParen (l.length + 1) l
  if m1.length ≥ 2 then renderChoices m1
  else
    let m2 := findAllNumPunct '.' (l.length + 1) true l
    if m2.length ≥ 2 then renderChoices m2
    else
      let m3 := findAllNumPunct ')' (l.length + 1) true l
      if m3.length ≥ 2 then renderChoices m3
      else []

/-! ## Confirmation payload (orchestrator.py lines 1033-1069)

`normalize_confirm_payload(action_data)`.  The embedding returns `Except`:
a truthy non-dict `confirm` value makes `confirm.get(...)` raise
`AttributeError`, a truthy `type` that is not a string makes `.strip()`
raise, and a truthy `options` that is neither string, list nor dict makes
the comprehension's iteration raise `TypeError`. -/

/-- The normalized pending-confirmation payload (the dict of lines
1061-1069). -/
structure ConfirmPayload where
  type : String
  question : String
  reason : String
  options : List String
  ok_reply : String
  ng_reply : String
  choice_reply_template : String
deriving DecidableEq

/-- `confirm = action_data.get("confirm") or {}` (line 1034). -/
def confirmDict (action_data : List (String × PyVal)) :
    Except PyError (List (String × PyVal)) :=
  match dictGet action_data ("confirm") with
  | PyVal.dict es => Except.ok es
  | v => if pyTruthy v then Except.error PyError.attributeError else Except.ok []

/-- `confirm_type = (confirm.get("type") or action_data.get("confirm_type")
or "").strip().lower()` (line 1035). -/
def confirmTypeStr (confirm action_data : List (String × PyVal)) : Except PyError String :=
  match pyOr (dictGet confirm ("type")) (pyOr (dictGet action_data ("confirm_type"))
      (PyVal.str "")) with
  | PyVal.str s => Except.ok (pyLower (pyStrip s))
  | _ => Except.error PyError.attributeError

/-- The `options` or-chain and list coercion of lines 1040-1043: a string
becomes a one-element list, a list is iterated, a dict is iterated over its
keys, any other truthy value raises. -/
def optionsList (confirm action_data : List (String × PyVal)) :
    Except PyError (List PyVal) :=
  match pyOr (dictGet confirm ("options")) (pyOr (dictGet confirm ("choices"))
      (pyOr (dictGet action_data ("options")) (pyOr (dictGet action_data ("choices"))
        (PyVal.list [])))) with
  | PyVal.str s => Except.ok [PyVal.str s]
  | PyVal.list items => Except.ok items
  | PyVal.dict es => Except.ok (es.map (fun e => PyVal.str e.1))
  | v => if pyTruthy v then Except.error PyError.typeError else Except.ok []

/-- `normalize_confirm_payload(action_data)` (lines 1033-1069). -/
def normalize_confirm_payload (action_data : List (String × PyVal)) :
    Except PyError ConfirmPayload :=
  match confirmDict action_data with
  | Except.error e => Except.error e
  | Except.ok confirm =>
    match confirmTypeStr confirm action_data with
    | Except.error e => Except.error e
    | Except.ok confirm_type =>
      let question0 := pyOr (dictGet confirm ("question"))
        (pyOr (dictGet action_data ("question")) (PyVal.str ""))
      let reason0 := pyOr (dictGet confirm ("reason"))
        (pyOr (dictGet action_data ("reason")) (PyVal.str ""))
      let question := if pyTruthy question0 then question0
        else PyVal.str ("確認内容が未設定です")
      match optionsList confirm action_data with
      | Except.error e => Except.error e
      | Except.ok options0 =>
        let options1 := (options0.filter pyTruthy).map pyStr
        -- lines 1046-1049: auto-extraction when no explicit options (an
        -- empty extraction leaves the empty list unchanged)
        let options := if options1.isEmpty then
            extract_choices_from_question (pyStr question)
          else options1
        let ctype := if confirm_type = "ok_ng" || confirm_type = "choice" ||
            confirm_type = "free_text" then confirm_type
          else if options.isEmpty then "ok_ng" else "choice"
        let okr := pyOr (dictGet confirm ("ok_reply"))
          (pyOr (dictGet action_data ("ok_reply"))
            (pyOr (dictGet action_data ("reply")) (PyVal.str "")))
        let ngr := pyOr (dictGet confirm ("ng_reply"))
          (pyOr (dictGet action_data ("ng_reply")) (PyVal.str ""))
        let ctmpl := pyOr (dictGet confirm ("choice_reply_template"))
          (pyOr (dictGet action_data ("choice_reply_template")) (PyVal.str ""))
        Except.ok
          { type := ctype,
            question := pyStr question,
            reason := if pyTruthy reason0 then pyStr reason0 else "",
            options := options,
            ok_reply := if pyTruthy okr then pyStr okr else "",
            ng_reply := if pyTruthy ngr then pyStr ngr else "",
            choice_reply_template := if pyTruthy ctmpl then pyStr ctmpl else "" }

/-- The C7 scenario's decision envelope: `needs_user_confirm` with no
explicit options and the question `"(1) A (2) B"`. -/
def exC7 : List (String × PyVal) :=
  [(("action"), PyVal.str ("needs_user_confirm")),
   (("question"), PyVal.str ("(1) A (2) B"))]

/-! ## User-decision reply synthesis (orchestrator.py lines 1072-1112)

`build_reply_from_pending(pending)`.  The pending payload read back from the
exchange record carries the strings written by `normalize_confirm_payload`
plus the user fields the external control surface fills in
(`user_reply` / `user_choice` strings, `user_approved` boolean). -/

/-- The stored pending-confirmation payload with its user-decision fields. -/
structure Pending where
  type : String
  question : String
  options : List String
  ok_reply : String
  ng_reply : String
  choice_reply_template : String
  user_reply : String
  user_choice : String
  user_approved : Bool
deriving DecidableEq

/-- The replies Python compares the decision against (line 1097). -/
def approvalWords : List String := ["ok", "yes", "y", "true", "1", "承認", "はい"]

/-- The `ok_ng` branch's decision string (lines 1092-1094): the user's reply,
or — when it is empty — the boolean flag rendered as OK/NG. -/
def okNgDecision (p : Pending) : String :=
  if p.user_reply ≠ "" then p.user_reply
  else if p.user_approved then "OK" else "NG"

/-- The approval reply of the `ok_ng` branch (lines 1098-1104). -/
def okNgApprovalReply (p : Pending) : String :=
  if p.ok_reply ≠ "" then p.ok_reply
  else if p.question ≠ "" then
    "ユーザーへの質問「" ++ p.question ++ "」に対する回答: OK（承認）。提案通り進めてください。"
  else "ユーザー回答: OK。提案通り進めてください。"

/-- The rejection reply of the `ok_ng` branch, asking for a revised
proposal (lines 1106-1112). -/
def okNgRejectionReply (p : Pending) : String :=
  if p.ng_reply ≠ "" then p.ng_reply
  else if p.question ≠ "" then
    "ユーザーへの質問「" ++ p.question ++ "」に対する回答: NG（却下）。修正案を提示してください。"
  else "ユーザー回答: NG。修正案を提示してください。"

/-- `build_reply_from_pending(pending)` (lines 1072-1112). -/
def build_reply_from_pending (p : Pending) : String :=
  let pendingType := pyLower (pyStrip (if p.type ≠ "" then p.type else "ok_ng"))
  if pendingType = "choice" then
    let choice := if p.user_choice ≠ "" then p.user_choice else p.user_reply
    if p.choice_reply_template ≠ "" then
      p.choice_reply_template.replace ("\x7bchoice\x7d") choice
    else if p.question ≠ "" then
      "ユーザーへの質問「" ++ p.question ++ "」に対する選択: " ++ choice ++
        "。この選択で進めてください。"
    else "ユーザー選択: " ++ choice ++ "。この選択で進めてください。"
  else if pendingType = "free_text" then
    if p.question ≠ "" then
      "ユーザーへの質問「" ++ p.question ++ "」に対する回答: " ++ p.user_reply ++
        "。この回答に基づいて進めてください。"
    else "ユーザー回答: " ++ p.user_reply
  else
    if pyLower (pyStrip (okNgDecision p)) ∈ approvalWords then okNgApprovalReply p
    else okNgRejectionReply p

/-- A binary-approval pending payload whose reply text is non-empty but not
an approval word. -/
def exC10 : Pending :=
  { type := "ok_ng", question := "Proceed?", options := [], ok_reply := "",
    ng_reply := "", choice_reply_template := "", user_reply := "nope",
    user_choice := "", user_approved := true }

/-! ## Status-file stages (orchestrator.py `write_status`, lines 440-444)

Every `write_status` call of the core passes a literal `stage` string; the
call sites are at lines 1333 (`initialized`), 1362 (`token_warning`, inside
`on_token_warning`), 1519 (`rewriter`), 1564 (`rewriter_done`), 1674
(`performer`), 1710 (`mix`), 1729 (`mix_done`), 1771 (`done`) and 1785
(`error`).  The dashboard-derived stages `stalled`/`killed` are computed in
`web_server.py` only and never written by the core. -/

/-- The `stage` values the core passes to `write_status`, one per call site,
in source order. -/
def coreWrittenStages : List String :=
  ["initialized", "token_warning", "rewriter", "rewriter_done", "performer",
   "mix", "mix_done", "done", "error"]

/-- The status payload `on_token_warning` writes (lines 1354-1367); the
`token_usage` sub-dict is summarized by the tracker argument. -/
structure StatusRecord where
  stage : String
  progress : ℚ
  task : String

/-- The status record built at lines 1359-1367. -/
def on_token_warning_status (tracker : TokenUsage) (task : String) : StatusRecord :=
  { stage := "token_warning", progress := usage_ratio tracker, task := task }

/-- The eight stage values section 6 of the spec enumerates.  Modelled from
the spec's words, for comparison with the code's call sites. -/
def specStatusStages : List String :=
  ["initialized", "rewriter", "rewriter_done", "performer", "mix", "mix_done",
   "done", "error"]

/-! ## Theorems -/

theorem toDigitsCore_eq_toDigits_append (n : Nat) :
    ∀ (fuel : Nat) (ds : List Char), n < fuel →
      Nat.toDigitsCore 10 fuel n ds = Nat.toDigits 10 n ++ ds := by
  induction n using Nat.strong_induction_on with
  | _ n ih =>
    intro fuel ds hfuel
    match fuel, hfuel with
    | fuel + 1, _ =>
      by_cases h0 : n / 10 = 0
      · simp [Nat.toDigitsCore, Nat.toDigits, h0]
      · have hn10 : 10 ≤ n := by
          by_contra hlt
          exact h0 (Nat.div_eq_of_lt (by omega))
        have hdivlt : n / 10 < n := Nat.div_lt_self (by omega) (by omega)
        have hdivfuel : n / 10 < fuel := by omega
        simp only [Nat.toDigitsCore, h0, if_false]
        rw [ih (n / 10) hdivlt fuel (Nat.digitChar (n % 10) :: ds) hdivfuel]
        show _ = Nat.toDigitsCore 10 (n + 1) n [] ++ ds
        simp only [Nat.toDigitsCore, h0, if_false]
        rw [ih (n / 10) hdivlt n (Nat.digitChar (n % 10) :: []) (by omega)]
        simp

theorem toDigits_lt_ten {n : Nat} (h : n < 10) :
    Nat.toDigits 10 n = [Nat.digitChar n] := by
  have h0 : n / 10 = 0 := Nat.div_eq_of_lt h
  simp [Nat.toDigits, Nat.toDigitsCore, h0, Nat.mod_eq_of_lt h]

theorem toDigits_ge_ten {n : Nat} (h : 10 ≤ n) :
    Nat.toDigits 10 n = Nat.toDigits 10 (n / 10) ++ [Nat.digitChar (n % 10)] := by
  have h0 : ¬ n / 10 = 0 := by
    intro hc
    have := (Nat.div_eq_zero_iff (by omega)).mp hc
    omega
  have hdivlt : n / 10 < n := Nat.div_lt_self (by omega) (by omega)
  show Nat.toDigitsCore 10 (n + 1) n [] = _
  simp only [Nat.toDigitsCore, h0, if_false]
  rw [toDigitsCore_eq_toDigits_append (n / 10) n (Nat.digitChar (n % 10) :: []) (by omega)]

theorem digitVal_digitChar {n : Nat} (h : n < 10) :
    digitVal (Nat.digitChar n) = n := by
  interval_cases n <;> rfl

theorem parseDigits_append_singleton (l : List Char) (c : Char) :
    parseDigits (l ++ [c]) = 10 * parseDigits l + digitVal c := by
  simp [parseDigits, List.foldl_append]

theorem parseDigits_toDigits (n : Nat) : parseDigits (Nat.toDigits 10 n) = n := by
  induction n using Nat.strong_induction_on with
  | _ n ih =>
    by_cases h : n < 10
    · rw [toDigits_lt_ten h]
      show 10 * 0 + digitVal (Nat.digitChar n) = n
      rw [digitVal_digitChar h]
      omega
    · have h10 : 10 ≤ n := by omega
      have hdivlt : n / 10 < n := Nat.div_lt_self (by omega) (by omega)
      rw [toDigits_ge_ten h10, parseDigits_append_singleton, ih (n / 10) hdivlt,
        digitVal_digitChar (Nat.mod_lt n (by omega))]
      omega

theorem natRepr_injective : Function.Injective Nat.repr := by
  intro m n h
  have hdig : Nat.toDigits 10 m = Nat.toDigits 10 n := by
    have h2 : (Nat.toDigits 10 m).asString = (Nat.toDigits 10 n).asString := h
    have h3 : ((Nat.toDigits 10 m).asString).data = ((Nat.toDigits 10 n).asString).data :=
      congrArg String.data h2
    simpa [List.asString] using h3
  have := congrArg parseDigits hdig
  rwa [parseDigits_toDigits, parseDigits_toDigits] at this

theorem string_append_right_injective (a : String) :
    Function.Injective fun s => a ++ s := by
  intro s t h
  have hd : (a ++ s).data = (a ++ t).data := congrArg String.data h
  rw [String.data_append, String.data_append] at hd
  have h2 := List.append_cancel_left hd
  cases s; cases t
  exact congrArg String.mk h2

theorem suffixed_injective (name : String) : Function.Injective (suffixed name) := by
  intro i j h
  exact natRepr_injective (string_append_right_injective (name ++ "-") h)

/-- Pigeonhole: among `used.length + 1` distinct candidates, one is fresh. -/
theorem exists_fresh_suffix (name : String) (used : List String) (idx : Nat) :
    ∃ k ≤ used.length, suffixed name (idx + k) ∉ used := by
  by_contra hall
  push_neg at hall
  have hsub : ∀ x ∈ (List.range (used.length + 1)).map (fun k => suffixed name (idx + k)),
      x ∈ used := by
    intro x hx
    rcases List.mem_map.mp hx with ⟨k, hk, rfl⟩
    exact hall k (by simpa using Nat.lt_succ_iff.mp (List.mem_range.mp hk))
  have hnodup : ((List.range (used.length + 1)).map
      (fun k => suffixed name (idx + k))).Nodup := by
    refine List.Nodup.map ?_ (List.nodup_range _)
    intro a b hab
    have := suffixed_injective name hab
    omega
  have hcard : ((List.range (used.length + 1)).map
      (fun k => suffixed name (idx + k))).toFinset.card = used.length + 1 := by
    rw [List.toFinset_card_of_nodup hnodup]
    simp
  have hsubset : ((List.range (used.length + 1)).map
      (fun k => suffixed name (idx + k))).toFinset ⊆ used.toFinset := by
    intro x hx
    exact List.mem_toFinset.mpr (hsub x (List.mem_toFinset.mp hx))
  have hle := Finset.card_le_card hsubset
  have hlen := used.toFinset_card_le
  omega

theorem uniqueNameAux_not_mem (name : String) (used : List String) :
    ∀ (fuel idx : Nat), (∃ k ≤ fuel, suffixed name (idx + k) ∉ used) →
      uniqueNameAux name used fuel idx ∉ used := by
  intro fuel
  induction fuel with
  | zero =>
    intro idx ⟨k, hk, hfresh⟩
    have hk0 : k = 0 := Nat.le_zero.mp hk
    subst hk0
    simpa [uniqueNameAux] using hfresh
  | succ fuel ih =>
    intro idx ⟨k, hk, hfresh⟩
    by_cases hmem : suffixed name idx ∈ used
    · have hk0 : k ≠ 0 := by
        intro hc; subst hc; simp at hfresh; exact hfresh hmem
      simp only [uniqueNameAux, hmem, if_true]
      exact ih (idx + 1) ⟨k - 1, by omega, by
        have : idx + 1 + (k - 1) = idx + k := by omega
        rwa [this]⟩
    · simp [uniqueNameAux, hmem]

/-- The result of `unique_name` is never an already-used name. -/
theorem unique_name_not_mem (name : String) (used : List String) :
    unique_name name used ∉ used := by
  unfold unique_name
  by_cases hmem : name ∈ used
  · simp only [hmem, if_true]
    refine uniqueNameAux_not_mem name used _ 2 ?_
    rcases exists_fresh_suffix name used 2 with ⟨k, hk, hfresh⟩
    exact ⟨k, by omega, hfresh⟩
  · simp [hmem]

theorem string_append_ne_empty_left {a : String} (h : a ≠ "") (b : String) :
    a ++ b ≠ "" := by
  intro hc
  have : (a ++ b).data = ("" : String).data := congrArg String.data hc
  rw [String.data_append] at this
  apply h
  cases a with
  | mk da =>
    cases da with
    | nil => rfl
    | cons c cs => simp at this

/-- `unique_name` preserves non-emptiness of the base name. -/
theorem unique_name_ne_empty {name : String} (h : name ≠ "") (used : List String) :
    unique_name name used ≠ "" := by
  unfold unique_name
  by_cases hmem : name ∈ used
  · simp only [hmem, if_true]
    generalize used.length + 1 = fuel
    generalize 2 = idx
    induction fuel generalizing idx with
    | zero => exact string_append_ne_empty_left (string_append_ne_empty_left h _) _
    | succ fuel ih =>
      by_cases hm : suffixed name idx ∈ used
      · simp only [uniqueNameAux, hm, if_true]
        exact ih (idx + 1)
      · simp only [uniqueNameAux, hm, if_false]
        exact string_append_ne_empty_left (string_append_ne_empty_left h _) _
  · simpa [hmem] using h

theorem toDigits_ne_nil (n : Nat) : Nat.toDigits 10 n ≠ [] := by
  by_cases h : n < 10
  · rw [toDigits_lt_ten h]; simp
  · rw [toDigits_ge_ten (by omega)]; simp

theorem natRepr_ne_empty (n : Nat) : Nat.repr n ≠ "" := by
  intro hc
  have hdata : Nat.toDigits 10 n = [] := by
    have := congrArg String.data hc
    simpa [Nat.repr, List.asString] using this
  exact toDigits_ne_nil n hdata

/-- `str(v)` of a truthy value is never the empty string. -/
theorem pyStr_truthy_ne_empty : ∀ {v : PyVal}, pyTruthy v = true → pyStr v ≠ "" := by
  intro v hv
  cases v with
  | none => simp [pyTruthy] at hv
  | bool b => cases b <;> simp_all [pyTruthy, pyStr, pyReprV]
  | int n =>
    show toString n ≠ ""
    cases n with
    | ofNat m => exact natRepr_ne_empty m
    | negSucc m => exact string_append_ne_empty_left (by decide) _
  | str s => simpa [pyTruthy, pyStr] using hv
  | list items =>
    simp only [pyStr, pyReprV]
    intro hc
    have : ("[" ++ String.intercalate (", ") (pyReprList items) ++ "]").data = [] :=
      congrArg String.data hc
    simp [String.data_append] at this
  | dict entries =>
    simp only [pyStr, pyReprV]
    intro hc
    have : ("\x7b" ++ String.intercalate (", ") (pyReprEntries entries) ++ "\x7d").data = [] :=
      congrArg String.data hc
    simp [String.data_append] at this

/-! ## Normalizer correctness (claims C1 and C8) -/

theorem ite_isEmpty_ne_nil {α} (l : List α) (x : α) (c : Bool) (hc : c = true) :
    (if l.isEmpty && c then [x] else l) ≠ [] := by
  cases l <;> simp [hc]

/-- Whenever the free text is non-blank, `normalize_tasks` yields a task. -/
theorem normalize_tasks_ne_nil (score : List (String × PyVal)) (task : String)
    (h : pyStrip task ≠ "") : normalize_tasks score task ≠ [] := by
  unfold normalize_tasks
  exact ite_isEmpty_ne_nil _ _ _ (by simp [h])

theorem assignInstrumentsAux_length (pool : List String) :
    ∀ (l : List TaskEntry) (idx : Nat) (used : List String) (poolIdx : Nat),
      (assignInstrumentsAux pool l idx used poolIdx).length = l.length := by
  intro l
  induction l with
  | nil => intro idx used poolIdx; rfl
  | cons item rest ih =>
    intro idx used poolIdx
    simp only [assignInstrumentsAux]
    split
    · simp [ih]
    · split <;> simp [ih]

theorem assign_instruments_length (tasks : List TaskEntry) (instrument_pool : List PyVal) :
    (assign_instruments tasks instrument_pool).length = tasks.length := by
  unfold assign_instruments
  exact assignInstrumentsAux_length _ tasks 1 [] 0

theorem normalizeIdsAux_spec :
    ∀ (l : List Assignment) (idx : Nat) (used : List String),
      ((normalizeIdsAux l idx used).1.length = l.length) ∧
      (∀ x, x ∈ (normalizeIdsAux l idx used).2 ↔
        x ∈ (normalizeIdsAux l idx used).1.map (fun a => a.id) ∨ x ∈ used) ∧
      ((normalizeIdsAux l idx used).1.map (fun a => a.id)).Nodup ∧
      (∀ a ∈ (normalizeIdsAux l idx used).1, a.id ∉ used ∧ a.id ≠ "") := by
  intro l
  induction l with
  | nil => intro idx used; simp [normalizeIdsAux]
  | cons inst rest ih =>
    intro idx used
    simp only [normalizeIdsAux]
    set raw0 := pyStrip inst.id with hraw0
    set raw1 := if raw0 = "" then "task-" ++ Nat.repr idx else raw0 with hraw1
    set raw2 := if raw1 ∈ used then unique_name raw1 used else raw1 with hraw2
    have hraw1ne : raw1 ≠ "" := by
      rw [hraw1]
      split
      · exact string_append_ne_empty_left (by decide) _
      · next hne => exact hne
    have hfresh : raw2 ∉ used := by
      rw [hraw2]
      split
      · exact unique_name_not_mem _ _
      · next hne => exact hne
    have hne : raw2 ≠ "" := by
      rw [hraw2]
      split
      · exact unique_name_ne_empty hraw1ne _
      · exact hraw1ne
    obtain ⟨ihlen, ihmem, ihnodup, ihfresh⟩ := ih (idx + 1) (raw2 :: used)
    refine ⟨by simp [ihlen], ?_, ?_, ?_⟩
    · intro x
      rw [ihmem x]
      simp only [List.map_cons, List.mem_cons]
      constructor
      · rintro (hx | hx)
        · exact Or.inl (Or.inr hx)
        · rcases hx with hx | hx
          · exact Or.inl (Or.inl hx)
          · exact Or.inr hx
      · rintro ((hx | hx) | hx)
        · exact Or.inr (Or.inl hx)
        · exact Or.inl hx
        · exact Or.inr (Or.inr hx)
    · simp only [List.map_cons, List.nodup_cons]
      refine ⟨?_, ihnodup⟩
      intro hmem
      rcases List.mem_map.mp hmem with ⟨a, ha, haid⟩
      exact ((ihfresh a ha).1) (haid ▸ List.mem_cons_self _ _)
    · intro a ha
      rcases List.mem_cons.mp ha with rfl | ha
      · exact ⟨hfresh, hne⟩
      · have := ihfresh a ha
        exact ⟨fun hu => this.1 (List.mem_cons_of_mem _ hu), this.2⟩

theorem filterDeps_id (u : List String) (a : Assignment) : (filterDeps u a).id = a.id := rfl

theorem normalize_assignments_map_id (l : List Assignment) :
    (normalize_assignments l).map (fun a => a.id) =
      (normalizeIdsAux l 1 []).1.map (fun a => a.id) := by
  unfold normalize_assignments
  simp [filterDeps_id]

theorem normalize_assignments_length (l : List Assignment) :
    (normalize_assignments l).length = l.length := by
  unfold normalize_assignments
  simp [(normalizeIdsAux_spec l 1 []).1]

/-- Validity of `normalize_assignments` output for any input: non-empty ids,
unique within the result, and every surviving dependency id names another
task of the result. -/
theorem normalize_assignments_valid (l : List Assignment) :
    (∀ a ∈ normalize_assignments l, a.id ≠ "") ∧
    ((normalize_assignments l).map (fun a => a.id)).Nodup ∧
    (∀ a ∈ normalize_assignments l, ∀ d ∈ a.deps,
      d ≠ a.id ∧ d ∈ (normalize_assignments l).map (fun a => a.id)) := by
  obtain ⟨hlen, hmem, hnodup, hfresh⟩ := normalizeIdsAux_spec l 1 []
  refine ⟨?_, ?_, ?_⟩
  · intro a ha
    unfold normalize_assignments at ha
    rcases List.mem_map.mp ha with ⟨b, hb, rfl⟩
    exact (hfresh b hb).2
  · rw [normalize_assignments_map_id]; exact hnodup
  · intro a ha d hd
    unfold normalize_assignments at ha
    rcases List.mem_map.mp ha with ⟨b, hb, rfl⟩
    simp only [filterDeps, List.mem_filter] at hd
    obtain ⟨⟨hdb, hdneq⟩, hdu⟩ := hd
    have hdmem : d ∈ (normalizeIdsAux l 1 []).2 := by
      simpa using hdu
    have : d ∈ (normalizeIdsAux l 1 []).1.map (fun a => a.id) := by
      rcases (hmem d).mp hdmem with h | h
      · exact h
      · simp at h
    refine ⟨?_, by rw [normalize_assignments_map_id]; exact this⟩
    simp only [filterDeps_id]
    simp only [Bool.and_eq_true, decide_eq_true_eq] at hdneq
    exact hdneq.2

/-- C1: for any planner output and a non-blank free-text task, the normalizer
pipeline returns at least one task; every task id is non-empty and unique
within the result; every dependency id refers to some other task of the same
result.  All embedded functions are total, so normalization never raises. -/
theorem c1_normalizer_valid (score : List (String × PyVal)) (task : String)
    (instrument_pool : List PyVal) (h : pyStrip task ≠ "") :
    normalizedPipeline score task instrument_pool ≠ [] ∧
    (∀ a ∈ normalizedPipeline score task instrument_pool, a.id ≠ "") ∧
    ((normalizedPipeline score task instrument_pool).map (fun a => a.id)).Nodup ∧
    (∀ a ∈ normalizedPipeline score task instrument_pool, ∀ d ∈ a.deps,
      d ≠ a.id ∧
      d ∈ (normalizedPipeline score task instrument_pool).map (fun a => a.id)) := by
  obtain ⟨h1, h2, h3⟩ :=
    normalize_assignments_valid (assign_instruments (normalize_tasks score task) instrument_pool)
  refine ⟨?_, h1, h2, h3⟩
  intro hc
  have hlen : (normalizedPipeline score task instrument_pool).length = 0 := by
    rw [hc]; rfl
  rw [normalizedPipeline, normalize_assignments_length, assign_instruments_length] at hlen
  exact normalize_tasks_ne_nil score task h (List.length_eq_zero.mp hlen)

/-- Witness for C1 at a concrete planner output and task. -/
theorem c1_normalizer_valid_witness :
    pyStrip ("overall goal") ≠ "" ∧
    (normalizedPipeline
        [(("dag"), PyVal.list [PyVal.dict [(("task"), PyVal.str ("Do A")), (("id"), PyVal.str ("a"))],
          PyVal.dict [(("task"), PyVal.str ("Do B")), (("deps"), PyVal.list [PyVal.str ("a")])]])]
        ("overall goal") [PyVal.str ("violin")] ≠ [] ∧
      (∀ a ∈ normalizedPipeline
          [(("dag"), PyVal.list [PyVal.dict [(("task"), PyVal.str ("Do A")), (("id"), PyVal.str ("a"))],
            PyVal.dict [(("task"), PyVal.str ("Do B")), (("deps"), PyVal.list [PyVal.str ("a")])]])]
          ("overall goal") [PyVal.str ("violin")], a.id ≠ "") ∧
      ((normalizedPipeline
          [(("dag"), PyVal.list [PyVal.dict [(("task"), PyVal.str ("Do A")), (("id"), PyVal.str ("a"))],
            PyVal.dict [(("task"), PyVal.str ("Do B")), (("deps"), PyVal.list [PyVal.str ("a")])]])]
          ("overall goal") [PyVal.str ("violin")]).map (fun a => a.id)).Nodup ∧
      (∀ a ∈ normalizedPipeline
          [(("dag"), PyVal.list [PyVal.dict [(("task"), PyVal.str ("Do A")), (("id"), PyVal.str ("a"))],
            PyVal.dict [(("task"), PyVal.str ("Do B")), (("deps"), PyVal.list [PyVal.str ("a")])]])]
          ("overall goal") [PyVal.str ("violin")], ∀ d ∈ a.deps,
        d ≠ a.id ∧
        d ∈ (normalizedPipeline
          [(("dag"), PyVal.list [PyVal.dict [(("task"), PyVal.str ("Do A")), (("id"), PyVal.str ("a"))],
            PyVal.dict [(("task"), PyVal.str ("Do B")), (("deps"), PyVal.list [PyVal.str ("a")])]])]
          ("overall goal") [PyVal.str ("violin")]).map (fun a => a.id))) :=
  ⟨by decide, c1_normalizer_valid _ _ _ (by decide)⟩

theorem normalizeDepStrs_of_valid {deps : List String}
    (h : ∀ d ∈ deps, pyStrip d = d ∧ d ≠ "") : normalizeDepStrs deps = deps := by
  unfold normalizeDepStrs
  have hf : deps.filter (fun d => pyStrip d ≠ "") = deps := by
    rw [List.filter_eq_self]
    intro d hd
    simp [(h d hd).1, (h d hd).2]
  rw [hf, show deps.map pyStrip = deps.map id from
    List.map_congr_left (fun d hd => (h d hd).1), List.map_id]

theorem normalizeIdsAux_of_valid :
    ∀ (l : List Assignment) (idx : Nat) (used : List String),
      (∀ a ∈ l, pyStrip a.id = a.id ∧ a.id ≠ "" ∧ a.id ∉ used ∧
        normalizeDepStrs a.deps = a.deps) →
      (l.map (fun a => a.id)).Nodup →
      normalizeIdsAux l idx used = (l, (l.map (fun a => a.id)).reverse ++ used) := by
  intro l
  induction l with
  | nil => intro idx used _ _; simp [normalizeIdsAux]
  | cons inst rest ih =>
    intro idx used hvalid hnodup
    obtain ⟨hstrip, hne, hnotmem, hdeps⟩ := hvalid inst (List.mem_cons_self _ _)
    have hn := hnodup
    simp only [List.map_cons, List.nodup_cons] at hn
    obtain ⟨hhd, htl⟩ := hn
    simp only [normalizeIdsAux, hstrip, hne, if_false, hnotmem, hdeps]
    have hrest : normalizeIdsAux rest (idx + 1) (inst.id :: used) =
        (rest, (rest.map (fun a => a.id)).reverse ++ (inst.id :: used)) := by
      refine ih (idx + 1) (inst.id :: used) ?_ htl
      intro a ha
      obtain ⟨h1, h2, h3, h4⟩ := hvalid a (List.mem_cons_of_mem _ ha)
      refine ⟨h1, h2, ?_, h4⟩
      intro hmem
      rcases List.mem_cons.mp hmem with heq | hmem2
      · exact hhd (List.mem_map.mpr ⟨a, ha, heq⟩)
      · exact h3 hmem2
    rw [hrest]
    simp [List.reverse_cons, List.append_assoc]

theorem filterDeps_of_valid {u : List String} {a : Assignment}
    (h : ∀ d ∈ a.deps, d ≠ "" ∧ d ≠ a.id ∧ d ∈ u) : filterDeps u a = a := by
  unfold filterDeps
  have h1 : a.deps.filter (fun d => d ≠ "" && d ≠ a.id) = a.deps := by
    rw [List.filter_eq_self]
    intro d hd
    have := h d hd
    simp [this.1, this.2.1]
  rw [h1, List.filter_eq_self.mpr]
  · intro d hd
    simpa using (h d hd).2.2

/-- C8 (amended): `normalize_assignments` is the identity on a task list
whose ids are non-empty, unique and free of surrounding whitespace, and
whose dependency ids each name another task of the list. -/
theorem c8_normalize_assignments_idempotent (l : List Assignment)
    (hids : ∀ a ∈ l, pyStrip a.id = a.id ∧ a.id ≠ "")
    (hnodup : (l.map (fun a => a.id)).Nodup)
    (hdeps : ∀ a ∈ l, ∀ d ∈ a.deps, d ∈ l.map (fun a => a.id) ∧ d ≠ a.id) :
    normalize_assignments l = l := by
  have hstripdep : ∀ a ∈ l, ∀ d ∈ a.deps, pyStrip d = d ∧ d ≠ "" := by
    intro a ha d hd
    rcases List.mem_map.mp ((hdeps a ha d hd).1) with ⟨b, hb, rfl⟩
    exact ⟨(hids b hb).1, (hids b hb).2⟩
  have hpass1 := normalizeIdsAux_of_valid l 1 []
    (fun a ha => ⟨(hids a ha).1, (hids a ha).2, by simp,
      normalizeDepStrs_of_valid (hstripdep a ha)⟩) hnodup
  unfold normalize_assignments
  rw [hpass1]
  simp only []
  rw [List.map_congr_left, List.map_id]
  intro a ha
  refine filterDeps_of_valid ?_
  intro d hd
  obtain ⟨hmem, hneq⟩ := hdeps a ha d hd
  rcases List.mem_map.mp hmem with ⟨b, hb, rfl⟩
  exact ⟨(hids b hb).2, hneq, by simp [List.mem_map.mpr ⟨b, hb, rfl⟩]⟩

/-- Witness for the amended C8 theorem at a concrete valid list. -/
theorem c8_normalize_assignments_idempotent_witness :
    (∀ a ∈ exC8ok, pyStrip a.id = a.id ∧ a.id ≠ "") ∧
    normalize_assignments exC8ok = exC8ok :=
  ⟨by decide, c8_normalize_assignments_idempotent exC8ok (by decide) (by decide) (by decide)⟩

/-- Counterexample to C8 as stated: `exC8` has non-empty unique ids and its
only dependency names another task of the list, yet normalization changes
both the first id and the dependency list (whitespace is stripped). -/
theorem c8_counterexample :
    (∀ a ∈ exC8, a.id ≠ "") ∧
    (exC8.map (fun a => a.id)).Nodup ∧
    (∀ a ∈ exC8, ∀ d ∈ a.deps, d ∈ exC8.map (fun a => a.id) ∧ d ≠ a.id) ∧
    normalize_assignments exC8 ≠ exC8 := by
  refine ⟨by decide, by decide, by decide, ?_⟩
  decide

theorem startReadyFn_id (d : List String) (t : TaskState) :
    (startReadyFn d t).id = t.id := by
  unfold startReadyFn; split <;> rfl

theorem startReadyFn_deps (d : List String) (t : TaskState) :
    (startReadyFn d t).deps = t.deps := by
  unfold startReadyFn; split <;> rfl

theorem pollTask_id (r : Nat → ExchReport) (t : TaskState) :
    (pollTask r t).id = t.id := by
  unfold pollTask
  split
  · cases r t.index <;> rfl
  · rfl

theorem pollTask_deps (r : Nat → ExchReport) (t : TaskState) :
    (pollTask r t).deps = t.deps := by
  unfold pollTask
  split
  · cases r t.index <;> rfl
  · rfl

/-- The start phase starts a task only when every one of its dependency ids
is already in the completed-id set. -/
theorem startReadyFn_gate (d : List String) (t : TaskState)
    (h : (startReadyFn d t).status = TStatus.running) :
    t.status = TStatus.running ∨ (t.status = TStatus.pending ∧ deps_done d t = true) := by
  unfold startReadyFn at h
  split at h
  · next hc =>
    simp only [Bool.and_eq_true, decide_eq_true_eq] at hc
    exact Or.inr hc
  · exact Or.inl h

/-- A pending task blocked on an incomplete dependency is untouched by the
start phase. -/
theorem startReadyFn_of_blocked {d : List String} {t : TaskState}
    (_hp : t.status = TStatus.pending) (hb : deps_done d t ≠ true) :
    startReadyFn d t = t := by
  unfold startReadyFn
  split
  · next hc =>
    simp only [Bool.and_eq_true, decide_eq_true_eq] at hc
    exact absurd hc.2 hb
  · rfl

theorem pollTask_of_pending {r : Nat → ExchReport} {t : TaskState}
    (hp : t.status = TStatus.pending) : pollTask r t = t := by
  unfold pollTask
  split
  · next hc => rw [hp] at hc; cases hc
  · rfl

/-- A task that is not pending is untouched by the start phase. -/
theorem startReadyFn_of_not_pending {d : List String} {t : TaskState}
    (hp : t.status ≠ TStatus.pending) : startReadyFn d t = t := by
  unfold startReadyFn
  split
  · next hc =>
    simp only [Bool.and_eq_true, decide_eq_true_eq] at hc
    exact absurd hc.1 hp
  · rfl

/-- A task that is not running is untouched by the poll phase. -/
theorem pollTask_of_not_running {r : Nat → ExchReport} {t : TaskState}
    (hp : t.status ≠ TStatus.running) : pollTask r t = t := by
  unfold pollTask
  split
  · next hc => exact absurd hc hp
  · rfl

theorem schedVerdict_state (s2 : SchedState) : (schedVerdict s2).state = s2 := by
  unfold schedVerdict
  split
  · rfl
  · split
    · rfl
    · split <;> rfl

theorem schedStep_state (r : Nat → ExchReport) (s : SchedState) :
    (schedStep r s).state = pollPhase r (startReady s) := by
  unfold schedStep
  exact schedVerdict_state _

/-- A C-blocked task has an incomplete dependency. -/
theorem deps_done_false_of_cyc {C : List String} {s : SchedState} {t : TaskState}
    (h1 : ∃ d ∈ t.deps, d ∈ C) (h3 : ∀ id ∈ C, id ∉ s.doneIds) :
    deps_done s.doneIds t ≠ true := by
  obtain ⟨d, hd, hdC⟩ := h1
  unfold deps_done
  intro hall
  rw [List.all_eq_true] at hall
  have hmem := hall d hd
  simp only [decide_eq_true_eq] at hmem
  exact h3 d hdC hmem

/-- One scheduler iteration preserves the cyclic-set invariant: tasks whose
id lies in a dependency-closed pending set `C` stay pending, and no id of
`C` enters the completed set. -/
theorem schedStep_preserves_cyc (C : List String) (s : SchedState) (r : Nat → ExchReport)
    (h1 : ∀ t ∈ s.tasks, t.id ∈ C → ∃ d ∈ t.deps, d ∈ C)
    (h2 : ∀ t ∈ s.tasks, t.id ∈ C → t.status = TStatus.pending)
    (h3 : ∀ id ∈ C, id ∉ s.doneIds) :
    (∀ t ∈ (schedStep r s).state.tasks, t.id ∈ C → ∃ d ∈ t.deps, d ∈ C) ∧
    (∀ t ∈ (schedStep r s).state.tasks, t.id ∈ C → t.status = TStatus.pending) ∧
    (∀ id ∈ C, id ∉ (schedStep r s).state.doneIds) := by
  rw [schedStep_state]
  have hs1pend : ∀ t ∈ (startReady s).tasks, t.id ∈ C → t.status = TStatus.pending := by
    intro t ht htC
    rcases List.mem_map.mp ht with ⟨t0, ht0, rfl⟩
    rw [startReadyFn_id] at htC
    rw [startReadyFn_of_blocked (h2 t0 ht0 htC)
      (deps_done_false_of_cyc (h1 t0 ht0 htC) h3)]
    exact h2 t0 ht0 htC
  have hs1cyc : ∀ t ∈ (startReady s).tasks, t.id ∈ C → ∃ d ∈ t.deps, d ∈ C := by
    intro t ht htC
    rcases List.mem_map.mp ht with ⟨t0, ht0, rfl⟩
    rw [startReadyFn_id] at htC
    rw [startReadyFn_deps]
    exact h1 t0 ht0 htC
  refine ⟨?_, ?_, ?_⟩
  · intro t ht htC
    rcases List.mem_map.mp ht with ⟨t1, ht1, rfl⟩
    rw [pollTask_id] at htC
    rw [pollTask_deps]
    exact hs1cyc t1 ht1 htC
  · intro t ht htC
    rcases List.mem_map.mp ht with ⟨t1, ht1, rfl⟩
    rw [pollTask_id] at htC
    rw [pollTask_of_pending (hs1pend t1 ht1 htC)]
    exact hs1pend t1 ht1 htC
  · intro id hidC hmem
    rcases List.mem_append.mp hmem with hmem | hmem
    · exact h3 id hidC hmem
    · rcases List.mem_filterMap.mp hmem with ⟨t1, ht1, hsome⟩
      by_cases hrun : t1.status = TStatus.running
      · simp only [hrun, if_true] at hsome
        cases hr : r t1.index with
        | working => rw [hr] at hsome; exact Option.noConfusion hsome
        | error => rw [hr] at hsome; exact Option.noConfusion hsome
        | done =>
          rw [hr] at hsome
          have hEq : t1.id = id := Option.some.inj hsome
          rw [hs1pend t1 ht1 (hEq ▸ hidC)] at hrun
          cases hrun
      · simp [hrun] at hsome

/-- The cyclic-set invariant holds along any run of the scheduling loop. -/
theorem schedRun_preserves_cyc (C : List String) :
    ∀ (rs : List (Nat → ExchReport)) (s : SchedState),
      (∀ t ∈ s.tasks, t.id ∈ C → ∃ d ∈ t.deps, d ∈ C) →
      (∀ t ∈ s.tasks, t.id ∈ C → t.status = TStatus.pending) →
      (∀ id ∈ C, id ∉ s.doneIds) →
      (∀ t ∈ (schedRun s rs).state.tasks, t.id ∈ C → t.status = TStatus.pending) ∧
      (∀ id ∈ C, id ∉ (schedRun s rs).state.doneIds) := by
  intro rs
  induction rs with
  | nil => intro s h1 h2 h3; exact ⟨h2, h3⟩
  | cons r rs ih =>
    intro s h1 h2 h3
    obtain ⟨p1, p2, p3⟩ := schedStep_preserves_cyc C s r h1 h2 h3
    cases hstep : schedStep r s with
    | next s' =>
      have hrw : schedRun s (r :: rs) = schedRun s' rs := by
        show (match schedStep r s with
          | SchedOutcome.next t => schedRun t rs
          | out => out) = schedRun s' rs
        rw [hstep]
      rw [hrw]
      rw [hstep] at p1 p2 p3
      exact ih s' p1 p2 p3
    | finished s' =>
      have hrw : schedRun s (r :: rs) = SchedOutcome.finished s' := by
        show (match schedStep r s with
          | SchedOutcome.next t => schedRun t rs
          | out => out) = SchedOutcome.finished s'
        rw [hstep]
      rw [hrw]
      rw [hstep] at p2 p3
      exact ⟨p2, p3⟩
    | deadlock s' =>
      have hrw : schedRun s (r :: rs) = SchedOutcome.deadlock s' := by
        show (match schedStep r s with
          | SchedOutcome.next t => schedRun t rs
          | out => out) = SchedOutcome.deadlock s'
        rw [hstep]
      rw [hrw]
      rw [hstep] at p2 p3
      exact ⟨p2, p3⟩

/-- When every task is either pending-and-blocked or terminal, and some
task is still pending, one iteration exits with the deadlock notice. -/
theorem schedStep_deadlock_of_blocked (s : SchedState) (r : Nat → ExchReport)
    (hall : ∀ t ∈ s.tasks, (t.status = TStatus.pending ∧ deps_done s.doneIds t ≠ true) ∨
      t.status = TStatus.done ∨ t.status = TStatus.error)
    (hpendex : ∃ t ∈ s.tasks, t.status = TStatus.pending) :
    schedStep r s = SchedOutcome.deadlock (pollPhase r (startReady s)) := by
  have hs1 : (startReady s).tasks = s.tasks := by
    unfold startReady
    simp only []
    rw [show s.tasks.map (startReadyFn s.doneIds) = s.tasks.map id from
      List.map_congr_left fun t ht => ?_, List.map_id]
    rcases hall t ht with ⟨hp, hb⟩ | ht' | ht'
    · exact startReadyFn_of_blocked hp hb
    · exact startReadyFn_of_not_pending (by rw [ht']; intro hc; cases hc)
    · exact startReadyFn_of_not_pending (by rw [ht']; intro hc; cases hc)
  have hs2 : (pollPhase r (startReady s)).tasks = s.tasks := by
    unfold pollPhase
    simp only [hs1]
    rw [show s.tasks.map (pollTask r) = s.tasks.map id from
      List.map_congr_left fun t ht => ?_, List.map_id]
    rcases hall t ht with ⟨hp, _⟩ | ht' | ht'
    · exact pollTask_of_pending hp
    · exact pollTask_of_not_running (by rw [ht']; intro hc; cases hc)
    · exact pollTask_of_not_running (by rw [ht']; intro hc; cases hc)
  have hrun : s.tasks.countP (fun t => t.status = TStatus.running) = 0 := by
    rw [List.countP_eq_zero]
    intro t ht
    rcases hall t ht with ⟨hp, _⟩ | ht' | ht'
    · simp [hp]
    · simp [ht']
    · simp [ht']
  have hpend : 0 < s.tasks.countP (fun t => t.status = TStatus.pending) := by
    rw [List.countP_pos_iff]
    obtain ⟨t, ht, hp⟩ := hpendex
    exact ⟨t, ht, by simp [hp]⟩
  have hdone : s.tasks.countP (fun t => t.status = TStatus.done) < s.tasks.length := by
    refine Nat.lt_of_le_of_ne (List.countP_le_length _) ?_
    intro heq
    rw [List.countP_eq_length] at heq
    obtain ⟨t, ht, hp⟩ := hpendex
    have := heq t ht
    rw [hp] at this
    simp at this
  show schedVerdict (pollPhase r (startReady s)) = _
  unfold schedVerdict
  rw [hs2, hrun]
  rw [if_neg (by omega),
    if_neg (by intro hc; simp only [Bool.and_eq_true, decide_eq_true_eq] at hc; omega),
    if_pos (by simp only [Bool.and_eq_true, decide_eq_true_eq]; exact ⟨trivial, hpend⟩)]

/-- C2: a task starts only when its every dependency id is in the completed
set; tasks whose ids form a dependency-closed pending set (a cycle) never
start along any run and their ids never enter the completed set; and
whenever every task is either in such a set or already terminal — in
particular when all tasks form the cycle — the loop exits at once with the
deadlock notice instead of looping. -/
theorem c2_scheduler_cycle (C : List String) (s : SchedState)
    (rs : List (Nat → ExchReport))
    (h1 : ∀ t ∈ s.tasks, t.id ∈ C → ∃ d ∈ t.deps, d ∈ C)
    (h2 : ∀ t ∈ s.tasks, t.id ∈ C → t.status = TStatus.pending)
    (h3 : ∀ id ∈ C, id ∉ s.doneIds) :
    (∀ (d : List String) (t : TaskState), (startReadyFn d t).status = TStatus.running →
      t.status = TStatus.running ∨ (t.status = TStatus.pending ∧ deps_done d t = true)) ∧
    (∀ t ∈ (schedRun s rs).state.tasks, t.id ∈ C → t.status = TStatus.pending) ∧
    (∀ id ∈ C, id ∉ (schedRun s rs).state.doneIds) ∧
    ((∀ t ∈ s.tasks, t.id ∈ C ∨ t.status = TStatus.done ∨ t.status = TStatus.error) →
      (∃ t ∈ s.tasks, t.id ∈ C) →
      ∀ r, schedStep r s = SchedOutcome.deadlock (pollPhase r (startReady s))) := by
  obtain ⟨p2, p3⟩ := schedRun_preserves_cyc C rs s h1 h2 h3
  refine ⟨startReadyFn_gate, p2, p3, ?_⟩
  intro hallC hex r
  refine schedStep_deadlock_of_blocked s r ?_ ?_
  · intro t ht
    rcases hallC t ht with htC | hterm
    · exact Or.inl ⟨h2 t ht htC,
        deps_done_false_of_cyc (h1 t ht htC) h3⟩
    · exact Or.inr hterm
  · obtain ⟨t, ht, htC⟩ := hex
    exact ⟨t, ht, h2 t ht htC⟩

/-- Witness for C2 at the two-task cycle (no report ever arrives because
nothing ever runs). -/
theorem c2_scheduler_cycle_witness :
    ((∀ t ∈ exC2.tasks, t.id ∈ ["a", "b"] → ∃ d ∈ t.deps, d ∈ ["a", "b"]) ∧
      (∀ t ∈ exC2.tasks, t.id ∈ ["a", "b"] → t.status = TStatus.pending) ∧
      (∀ id ∈ ["a", "b"], id ∉ exC2.doneIds)) ∧
    ((∀ (d : List String) (t : TaskState), (startReadyFn d t).status = TStatus.running →
      t.status = TStatus.running ∨ (t.status = TStatus.pending ∧ deps_done d t = true)) ∧
    (∀ t ∈ (schedRun exC2 [fun _ => ExchReport.working]).state.tasks,
      t.id ∈ ["a", "b"] → t.status = TStatus.pending) ∧
    (∀ id ∈ ["a", "b"], id ∉ (schedRun exC2 [fun _ => ExchReport.working]).state.doneIds) ∧
    ((∀ t ∈ exC2.tasks, t.id ∈ ["a", "b"] ∨ t.status = TStatus.done ∨
        t.status = TStatus.error) →
      (∃ t ∈ exC2.tasks, t.id ∈ ["a", "b"]) →
      ∀ r, schedStep r exC2 = SchedOutcome.deadlock (pollPhase r (startReady exC2)))) :=
  ⟨⟨by decide, by decide, by decide⟩,
    c2_scheduler_cycle ["a", "b"] exC2 [fun _ => ExchReport.working]
      (by decide) (by decide) (by decide)⟩

/-- Counterexample to C3 as stated: with `max_turns = 1`, after one
user-confirmation resolution and one reply the record's turn counter is 2,
exceeding the cap while the exchange is not done (the user-resolution branch
increments the record's counter but not the loop-local one the cap checks). -/
theorem c3_counterexample :
    (workerRun 1 exC3events).record.turn = 2 ∧
    ¬ ((workerRun 1 exC3events).record.turn ≤ 1) ∧
    (workerRun 1 exC3events).record.status ≠ RStatus.done := by
  decide

theorem workerStep_inv (maxTurns : Nat) (w : WorkerState) (e : WEvent)
    (he : e ≠ WEvent.user)
    (h : w.record.turn = w.localTurn ∧ w.localTurn ≤ maxTurns ∧ w.record.pendingFilled = false) :
    (workerStep maxTurns w e).record.turn = (workerStep maxTurns w e).localTurn ∧
    (workerStep maxTurns w e).localTurn ≤ maxTurns ∧
    (workerStep maxTurns w e).record.pendingFilled = false := by
  obtain ⟨h1, h2, h3⟩ := h
  obtain ⟨⟨st, tn, pf⟩, lt⟩ := w
  replace h1 : tn = lt := h1
  replace h2 : lt ≤ maxTurns := h2
  replace h3 : pf = false := h3
  subst h3
  cases e with
  | user => exact absurd rfl he
  | perf => cases st <;> exact ⟨h1, h2, rfl⟩
  | sup d =>
    cases st with
    | done => exact ⟨h1, h2, rfl⟩
    | error => exact ⟨h1, h2, rfl⟩
    | waitingForPerformer => exact ⟨h1, h2, rfl⟩
    | waitingForUser => exact ⟨h1, h2, rfl⟩
    | waitingForConcertmaster =>
      simp only [workerStep, supStep]
      by_cases hcap : lt ≥ maxTurns
      · rw [if_pos hcap]
        exact ⟨h1, h2, rfl⟩
      · rw [if_neg hcap]
        cases d with
        | done => exact ⟨h1, h2, rfl⟩
        | needsUserConfirm => exact ⟨h1, h2, rfl⟩
        | reply =>
          refine ⟨?_, ?_, rfl⟩
          · show tn + 1 = lt + 1
            omega
          · show lt + 1 ≤ maxTurns
            omega

theorem workerRun_inv (maxTurns : Nat) (events : List WEvent)
    (hnou : ∀ e ∈ events, e ≠ WEvent.user) :
    (workerRun maxTurns events).record.turn = (workerRun maxTurns events).localTurn ∧
    (workerRun maxTurns events).localTurn ≤ maxTurns ∧
    (workerRun maxTurns events).record.pendingFilled = false := by
  unfold workerRun
  have hinit : initWorker.record.turn = initWorker.localTurn ∧
      initWorker.localTurn ≤ maxTurns ∧ initWorker.record.pendingFilled = false := by
    refine ⟨rfl, Nat.zero_le _, rfl⟩
  generalize hstart : initWorker = w0 at hinit
  clear hstart
  induction events generalizing w0 with
  | nil => exact hinit
  | cons e rest ih =>
    simp only [List.foldl_cons]
    exact ih (fun x hx => hnou x (List.mem_cons_of_mem _ hx)) _
      (workerStep_inv maxTurns w0 e (hnou e (List.mem_cons_self _ _)) hinit)

/-- C3 (amended): in runs without user-confirmation resolutions, the
record's turn counter never exceeds `max_turns`; and once the loop-local
reply count reaches the cap, the next concertmaster poll forces `done`
without consulting the agent's decision.  (With user resolutions the
record's counter can exceed the cap, see the counterexample.) -/
theorem c3_turn_cap (maxTurns : Nat) (events : List WEvent)
    (hnou : ∀ e ∈ events, e ≠ WEvent.user) :
    (workerRun maxTurns events).record.turn ≤ maxTurns ∧
    (∀ (w : WorkerState) (d : Decision),
      w.record.status = RStatus.waitingForConcertmaster → maxTurns ≤ w.localTurn →
      (supStep maxTurns w d).record.status = RStatus.done ∧
      (supStep maxTurns w d).record.turn = w.record.turn) := by
  obtain ⟨h1, h2, _⟩ := workerRun_inv maxTurns events hnou
  refine ⟨by omega, ?_⟩
  intro w d hst hcap
  simp only [supStep, hst, if_pos hcap]
  exact ⟨trivial, trivial⟩

/-- Witness for the amended C3 theorem: two reply rounds under
`max_turns = 2`. -/
theorem c3_turn_cap_witness :
    (∀ e ∈ [WEvent.sup Decision.reply, WEvent.perf, WEvent.sup Decision.reply,
      WEvent.perf, WEvent.sup Decision.done], e ≠ WEvent.user) ∧
    ((workerRun 2 [WEvent.sup Decision.reply, WEvent.perf, WEvent.sup Decision.reply,
      WEvent.perf, WEvent.sup Decision.done]).record.turn ≤ 2 ∧
    (∀ (w : WorkerState) (d : Decision),
      w.record.status = RStatus.waitingForConcertmaster → 2 ≤ w.localTurn →
      (supStep 2 w d).record.status = RStatus.done ∧
      (supStep 2 w d).record.turn = w.record.turn)) :=
  ⟨by decide, c3_turn_cap 2 _ (by decide)⟩

/-- C4 is a code bug: a real (non-dry) invocation whose process exceeds the
timeout makes `run_external` raise `TimeoutExpired` instead of returning a
failure record (non-zero returncode, empty output) — for every non-empty
command template, and in particular for a concrete `claude` command. -/
theorem c4_timeout_escapes_run_external :
    (∀ (cmdTmpl : List String) (prompt : String)
      (tokenCounts : String → String → Nat × Nat), cmdTmpl ≠ [] →
      run_external cmdTmpl prompt false SubprocBehavior.timeoutExpired tokenCounts =
        Except.error PyError.timeoutExpired) ∧
    (∀ r : RunExtResult,
      run_external ["claude", "-p", "\x7bprompt\x7d"] ("hello") false
        SubprocBehavior.timeoutExpired (fun _ _ => (0, 0)) ≠ Except.ok r) := by
  constructor
  · intro cmdTmpl prompt tokenCounts hne
    unfold run_external
    rw [if_neg (by simpa [List.isEmpty_iff] using hne)]
    rfl
  · intro r hc
    have : Except.error PyError.timeoutExpired = Except.ok r := by
      rw [← hc]
      rfl
    cases this

/-- Witness for the C4 theorem's quantified half at a concrete command. -/
theorem c4_timeout_escapes_run_external_witness :
    (["codex", "exec"] : List String) ≠ [] ∧
    run_external ["codex", "exec"] ("do the task") false SubprocBehavior.timeoutExpired
      (fun _ _ => (0, 0)) = Except.error PyError.timeoutExpired :=
  ⟨by decide, c4_timeout_escapes_run_external.1 ["codex", "exec"] ("do the task") _
    (by decide)⟩

theorem govStep_attempts_le (maxC : Int) (g : GovState) (ev : UsageEvent)
    (h : g.compactAttempts ≤ maxC.toNat) :
    (govStep maxC g ev).compactAttempts ≤ maxC.toNat := by
  unfold govStep checkThresholds
  by_cases h1 : usage_ratio (add_usage ev.input ev.output ev.label g.usage) ≥
      (add_usage ev.input ev.output ev.label g.usage).compact_threshold
  · rw [if_pos h1]
    unfold on_compact_once
    by_cases h2 : ({ g with usage := add_usage ev.input ev.output ev.label g.usage } :
        GovState).compactFired
    · rw [if_pos h2]; exact h
    · rw [if_neg h2]
      unfold on_compact_needed
      by_cases h3 : maxC ≤ (g.compactAttempts : Int)
      · rw [if_pos h3]
        exact h
      · rw [if_neg h3]
        by_cases h4 : ev.anySuccess = true
        · rw [if_pos h4]
          show g.compactAttempts + 1 ≤ maxC.toNat
          omega
        · rw [if_neg h4]
          show g.compactAttempts + 1 ≤ maxC.toNat
          omega
  · rw [if_neg h1]
    by_cases h2 : usage_ratio (add_usage ev.input ev.output ev.label g.usage) ≥
        (add_usage ev.input ev.output ev.label g.usage).warning_threshold
    · rw [if_pos h2]
      unfold on_warning_once
      by_cases h3 : ({ g with usage := add_usage ev.input ev.output ev.label g.usage } :
          GovState).warningFired
      · rw [if_pos h3]; exact h
      · rw [if_neg h3]; exact h
    · rw [if_neg h2]; exact h

theorem govRun_attempts_le (maxC : Int) :
    ∀ (events : List UsageEvent) (g : GovState), g.compactAttempts ≤ maxC.toNat →
      (govRun maxC g events).compactAttempts ≤ maxC.toNat := by
  intro events
  induction events with
  | nil => intro g h; exact h
  | cons ev rest ih =>
    intro g h
    exact ih (govStep maxC g ev) (govStep_attempts_le maxC g ev h)

/-- Once the attempt budget is spent, a threshold crossing changes nothing
beyond the call accounting itself: the attempt counter stays put and no
discount touches the totals. -/
theorem govStep_exhausted (maxC : Int) (g : GovState) (ev : UsageEvent)
    (h : maxC ≤ (g.compactAttempts : Int)) :
    (govStep maxC g ev).compactAttempts = g.compactAttempts ∧
    (govStep maxC g ev).usage.total_combined =
      g.usage.total_combined + (ev.input + ev.output) := by
  unfold govStep checkThresholds
  by_cases h1 : usage_ratio (add_usage ev.input ev.output ev.label g.usage) ≥
      (add_usage ev.input ev.output ev.label g.usage).compact_threshold
  · rw [if_pos h1]
    unfold on_compact_once
    by_cases h2 : ({ g with usage := add_usage ev.input ev.output ev.label g.usage } :
        GovState).compactFired
    · rw [if_pos h2]; exact ⟨rfl, rfl⟩
    · rw [if_neg h2]
      unfold on_compact_needed
      rw [if_pos h]
      exact ⟨rfl, rfl⟩
  · rw [if_neg h1]
    by_cases h2 : usage_ratio (add_usage ev.input ev.output ev.label g.usage) ≥
        (add_usage ev.input ev.output ev.label g.usage).warning_threshold
    · rw [if_pos h2]
      unfold on_warning_once
      by_cases h3 : ({ g with usage := add_usage ev.input ev.output ev.label g.usage } :
          GovState).warningFired
      · rw [if_pos h3]; exact ⟨rfl, rfl⟩
      · rw [if_neg h3]; exact ⟨rfl, rfl⟩
    · rw [if_neg h2]; exact ⟨rfl, rfl⟩

/-- C5: starting from a fresh attempt counter, a whole run executes at most
`max_compact_attempts` mitigation cycles however many times the compaction
threshold is crossed; and once the budget is spent a crossing only logs:
the counter and the totals (beyond the call accounting) are untouched. -/
theorem c5_compact_budget (maxC : Int) (events : List UsageEvent) (g0 : GovState)
    (h0 : g0.compactAttempts = 0) :
    (govRun maxC g0 events).compactAttempts ≤ maxC.toNat ∧
    (∀ (g : GovState) (ev : UsageEvent), maxC ≤ (g.compactAttempts : Int) →
      (govStep maxC g ev).compactAttempts = g.compactAttempts ∧
      (govStep maxC g ev).usage.total_combined =
        g.usage.total_combined + (ev.input + ev.output)) := by
  constructor
  · exact govRun_attempts_le maxC events g0 (by omega)
  · exact govStep_exhausted maxC

/-- Witness for C5: two threshold-crossing calls under a budget of one
attempt. -/
theorem c5_compact_budget_witness :
    exGov.compactAttempts = 0 ∧
    ((govRun 1 exGov [{ input := 0, output := 170000, label := "a", anySuccess := false },
        { input := 0, output := 170000, label := "b", anySuccess := true }]).compactAttempts ≤
      (1 : Int).toNat ∧
    (∀ (g : GovState) (ev : UsageEvent), (1 : Int) ≤ (g.compactAttempts : Int) →
      (govStep 1 g ev).compactAttempts = g.compactAttempts ∧
      (govStep 1 g ev).usage.total_combined =
        g.usage.total_combined + (ev.input + ev.output))) :=
  ⟨rfl, c5_compact_budget 1 _ exGov rfl⟩

/-- C6 (amended): the post-mitigation discount halves each total, rounding
down, so a total strictly decreases exactly when it was positive; a zero
total (for instance `total_input` when every recorded token was output)
stays zero. -/
theorem c6_discount_strict_iff_pos (t : TokenUsage) :
    ((applyDiscount t).total_combined < t.total_combined ↔ 0 < t.total_combined) ∧
    ((applyDiscount t).total_input < t.total_input ↔ 0 < t.total_input) ∧
    ((applyDiscount t).total_output < t.total_output ↔ 0 < t.total_output) := by
  refine ⟨?_, ?_, ?_⟩
  · show t.total_combined / 2 < t.total_combined ↔ 0 < t.total_combined
    omega
  · show t.total_input / 2 < t.total_input ↔ 0 < t.total_input
    omega
  · show t.total_output / 2 < t.total_output ↔ 0 < t.total_output
    omega

/-- Counterexample to C6 as stated: one recorded call of 170000 output
tokens (and no input tokens) crosses the default compaction threshold; the
mitigation runs and its compact command succeeds, yet `total_input` — 0 when
the cycle started — is still 0 afterwards, so not all tracked totals
strictly decrease. -/
theorem c6_counterexample :
    (govStep 3 exGov exC6ev).compactAttempts = 1 ∧
    (govStep 3 exGov exC6ev).usage.total_combined = 85000 ∧
    (add_usage 0 170000 ("call") exGov.usage).total_input = 0 ∧
    ¬ ((govStep 3 exGov exC6ev).usage.total_input <
      (add_usage 0 170000 ("call") exGov.usage).total_input) := by
  refine ⟨?_, ?_, rfl, ?_⟩ <;>
    · simp only [govStep, checkThresholds, add_usage, usage_ratio, on_compact_once,
        on_compact_needed, on_warning_once, applyDiscount, exGov, exC6ev]
      norm_num

/-- C7: the payload normalized from a question containing `"(1) A (2) B"`
with no explicit options has exactly the options `["1: A", "2: B"]` and the
multiple-choice type; and every payload the normalizer produces carries a
non-empty question. -/
theorem c7_confirm_payload :
    (normalize_confirm_payload exC7 = Except.ok
      { type := "choice", question := "(1) A (2) B", reason := "",
        options := ["1: A", "2: B"], ok_reply := "", ng_reply := "",
        choice_reply_template := "" }) ∧
    (∀ (action_data : List (String × PyVal)) (p : ConfirmPayload),
      normalize_confirm_payload action_data = Except.ok p → p.question ≠ "") := by
  constructor
  · rfl
  · intro action_data p h
    unfold normalize_confirm_payload at h
    split at h
    · cases h
    · split at h
      · cases h
      · split at h
        · cases h
        · injection h with h
          subst h
          show pyStr (if pyTruthy _ then _ else _) ≠ ""
          split
          · next htr => exact pyStr_truthy_ne_empty htr
          · decide

/-- Witness for the universal half of C7 at a concrete payload. -/
theorem c7_confirm_payload_witness :
    normalize_confirm_payload exC7 = Except.ok
      { type := "choice", question := "(1) A (2) B", reason := "",
        options := ["1: A", "2: B"], ok_reply := "", ng_reply := "",
        choice_reply_template := "" } ∧
    ({ type := "choice", question := "(1) A (2) B", reason := "",
       options := ["1: A", "2: B"], ok_reply := "", ng_reply := "",
       choice_reply_template := "" } : ConfirmPayload).question ≠ "" :=
  ⟨c7_confirm_payload.1, c7_confirm_payload.2 exC7 _ c7_confirm_payload.1⟩

/-- C10: in the binary-approval branch (any pending type other than
`choice` / `free_text`), the synthesized reply is the approval reply exactly
when the decision string — the user's reply, or the OK/NG-rendered flag when
the reply is empty — strips and lowercases to one of
ok/yes/y/true/1/承認/はい, and the rejection reply (asking for a revised
proposal) otherwise; in particular every other non-empty reply string yields
the rejection reply. -/
theorem c10_ok_ng_reply (p : Pending)
    (hc : pyLower (pyStrip (if p.type ≠ "" then p.type else "ok_ng")) ≠ "choice")
    (hf : pyLower (pyStrip (if p.type ≠ "" then p.type else "ok_ng")) ≠ "free_text") :
    build_reply_from_pending p =
      (if pyLower (pyStrip (okNgDecision p)) ∈ approvalWords then okNgApprovalReply p
       else okNgRejectionReply p) ∧
    (p.user_reply ≠ "" → pyLower (pyStrip p.user_reply) ∉ approvalWords →
      build_reply_from_pending p = okNgRejectionReply p) := by
  have hmain : build_reply_from_pending p =
      (if pyLower (pyStrip (okNgDecision p)) ∈ approvalWords then okNgApprovalReply p
       else okNgRejectionReply p) := by
    unfold build_reply_from_pending
    rw [if_neg hc, if_neg hf]
  refine ⟨hmain, ?_⟩
  intro hne hnot
  rw [hmain, if_neg]
  unfold okNgDecision
  rw [if_pos hne]
  exact hnot

/-- Witness for C10: the rejected approval request `exC10`. -/
theorem c10_ok_ng_reply_witness :
    (pyLower (pyStrip (if exC10.type ≠ "" then exC10.type else "ok_ng")) ≠ "choice" ∧
     pyLower (pyStrip (if exC10.type ≠ "" then exC10.type else "ok_ng")) ≠ "free_text") ∧
    (build_reply_from_pending exC10 =
      (if pyLower (pyStrip (okNgDecision exC10)) ∈ approvalWords then
        okNgApprovalReply exC10
       else okNgRejectionReply exC10) ∧
    (exC10.user_reply ≠ "" → pyLower (pyStrip exC10.user_reply) ∉ approvalWords →
      build_reply_from_pending exC10 = okNgRejectionReply exC10)) :=
  ⟨⟨by decide, by decide⟩,
    c10_ok_ng_reply exC10 (by decide) (by decide)⟩

/-- Counterexample to C9 as stated: the token-warning callback writes the
stage `token_warning`, a value outside the spec's eight enumerated stages. -/
theorem c9_counterexample :
    (on_token_warning_status exGov.usage ("t")).stage ∈ coreWrittenStages ∧
    (on_token_warning_status exGov.usage ("t")).stage ∉ specStatusStages := by
  constructor
  · show ("token_warning" : String) ∈ coreWrittenStages
    decide
  · show ("token_warning" : String) ∉ specStatusStages
    decide

/-- C9 (amended): every stage the core writes is one of the spec's eight
enumerated stages or the additional `token_warning` written by the warning
callback; the externally derived `stalled`/`killed` are never written. -/
theorem c9_core_stages (s : String) (h : s ∈ coreWrittenStages) :
    (s ∈ specStatusStages ∨ s = "token_warning") ∧
    s ≠ "stalled" ∧ s ≠ "killed" := by
  fin_cases h <;> refine ⟨?_, by decide, by decide⟩ <;> first
    | exact Or.inl (by decide)
    | exact Or.inr rfl

/-- Witness for the amended C9 theorem at a concrete stage value. -/
theorem c9_core_stages_witness :
    ("token_warning" : String) ∈ coreWrittenStages ∧
    ((("token_warning" : String) ∈ specStatusStages ∨
      ("token_warning" : String) = "token_warning") ∧
     ("token_warning" : String) ≠ "stalled" ∧ ("token_warning" : String) ≠ "killed") :=
  ⟨by decide, c9_core_stages ("token_warning") (by decide)⟩

end Orch
